import Mathlib

/-!
Verification of the devin-security-sentinel dispatch-and-supervision core.

The definitions below are a shallow embedding of the Python sources under
`src/scripts/devin/` (and the older copy `src/scripts/devin_orchestrator.py`).
External I/O (GitHub / Devin HTTP calls, the wall clock, the environment) is
made explicit: environment variables become an `Env` record, each HTTP
response becomes an oracle value passed in as a function argument, and the
wall-clock readings taken by a loop iteration become explicit rational
timestamps.  Machine floats in the source are modelled as rationals (only
comparisons and exact arithmetic on them matter here).
-/

namespace Sentinel

/-! ### Data model (src/scripts/devin/DO_models.py) -/

/-- The `SessionStatus` enum from `DO_models.py`. -/
inductive SessionStatus where
  | SUCCESS
  | FAILURE
  | PARTIAL
  | STUCK
  | TIMEOUT
  | PENDING
  | RUNNING
deriving DecidableEq

/-- The `SessionResult` dataclass from `DO_models.py`. -/
structure SessionResult where
  status : SessionStatus
  session_id : String
  batch_id : String
  alert_numbers : List Int
  pr_url : Option String := none
  session_url : Option String := none
  error_message : Option String := none
  fixed_alerts : List Int := []
  unfixed_alerts : List Int := []
deriving DecidableEq

/-! ### Python dict as an insertion-ordered association list

Python `results[k] = v` updates the value in place when `k` is already a key
and appends the pair otherwise; iteration follows first-insertion order. -/

/-- Python `d[k] = v` on an insertion-ordered association list. -/
def assocSet {α β : Type} [DecidableEq α] (k : α) (v : β) :
    List (α × β) → List (α × β)
  | [] => [(k, v)]
  | (k2, v2) :: rest =>
      if k = k2 then (k, v) :: rest else (k2, v2) :: assocSet k v rest

/-- Keys of an association list, in iteration order. -/
def assocKeys {α β : Type} (l : List (α × β)) : List α := l.map Prod.fst

/-- Lookup in an association list. -/
def assocFind {α β : Type} [DecidableEq α] (k : α) :
    List (α × β) → Option β
  | [] => none
  | (k2, v) :: rest => if k = k2 then some v else assocFind k rest

/-- The dict built by a loop `for n in l: d[n] = f n` (as in
`close_github_alerts` and the per-alert result maps). -/
def dictOf {α β : Type} [DecidableEq α] (f : α → β) (l : List α) :
    List (α × β) :=
  l.foldl (fun acc n => assocSet n (f n) acc) []

/-! ### Polling state machine (src/scripts/devin/DO_session.py, poll_session_status) -/

/-- The fields of one fetched status payload that `poll_session_status` reads:
`status` is `session_data.get("status_enum", session_data.get("status", "unknown"))`,
`pr_url` is `session_data.get("pull_request", {}).get("url")` (None when no
pull request is attached). -/
structure SessionData where
  status : String
  status_message : String
  structured_output : Option String
  pr_url : Option String
deriving DecidableEq

/-- Python truthiness of an optional string (`if pr_url:`): false for `None`
and for the empty string. -/
def pyTruthy : Option String → Bool
  | none => false
  | some s => s ≠ ""

/-- The loop-carried variables of `poll_session_status`. -/
structure PollState where
  start_time : ℚ
  last_activity_time : ℚ
  last_status_message : String
  last_structured_output : Option String
deriving DecidableEq

/-- The `time.time()` readings one loop iteration can take: at the loop top
(`elapsed`), inside the activity update, and for the stagnation computation.
They are given monotonically increasing in real executions. -/
structure PollTimes where
  tNow : ℚ
  tAct : ℚ
  tStag : ℚ
deriving DecidableEq

/-- Outcome of one iteration of the polling loop. -/
inductive PollStep where
  | again (st : PollState)
  | terminal (r : SessionResult)
deriving DecidableEq

/-- The content-based activity update: `last_activity_time` and the remembered
message/structured output change exactly when the fetched content differs from
the previous poll. -/
def activityUpdate (st : PollState) (t : PollTimes) (d : SessionData) : PollState :=
  if d.status_message ≠ st.last_status_message ∨
     d.structured_output ≠ st.last_structured_output then
    { st with
      last_activity_time := t.tAct
      last_status_message := d.status_message
      last_structured_output := d.structured_output }
  else st

/-- One iteration of the `while True:` loop of `poll_session_status`
(`DO_session.py` lines 186-278).  `fetched = none` models a transient fetch
failure (`get_devin_session_status` returned `None`). -/
def pollStep (timeout stagnation_threshold : ℚ) (session_id : String)
    (session_url : Option String) (st : PollState) (t : PollTimes)
    (fetched : Option SessionData) : PollStep :=
  let elapsed := t.tNow - st.start_time
  if elapsed > timeout then
    .terminal
      { status := .TIMEOUT, session_id := session_id, batch_id := ""
        alert_numbers := [], session_url := session_url
        error_message :=
          some ("Session timed out after " ++ toString timeout ++ " seconds") }
  else
    match fetched with
    | none => .again st
    | some d =>
      let st1 := activityUpdate st t d
      let stagnation_time := t.tStag - st1.last_activity_time
      if stagnation_time > stagnation_threshold then
        .terminal
          { status := .STUCK, session_id := session_id, batch_id := ""
            alert_numbers := [], session_url := session_url
            error_message :=
              some ("Session stagnated for " ++ toString stagnation_time ++
                " seconds") }
      else if pyTruthy d.pr_url then
        .terminal
          { status := .SUCCESS, session_id := session_id, batch_id := ""
            alert_numbers := [], pr_url := d.pr_url
            session_url := session_url }
      else if d.status = "finished" ∨ d.status = "completed" ∨
              d.status = "success" then
        .terminal
          { status := .SUCCESS, session_id := session_id, batch_id := ""
            alert_numbers := [], pr_url := d.pr_url
            session_url := session_url }
      else if d.status = "failed" ∨ d.status = "error" ∨
              d.status = "cancelled" then
        .terminal
          { status := .FAILURE, session_id := session_id, batch_id := ""
            alert_numbers := [], session_url := session_url
            error_message :=
              some (if d.status_message ≠ "" then d.status_message
                else "Session ended with status: " ++ d.status) }
      else if d.status = "blocked" then
        .terminal
          { status := .FAILURE, session_id := session_id, batch_id := ""
            alert_numbers := [], session_url := session_url
            error_message :=
              some "Session is blocked and requires manual intervention" }
      else .again st1

/-- The polling loop, driven by the finite list of iteration observations an
execution provides; `none` means the list of observations was exhausted with
no terminal condition reached. -/
def pollLoop (timeout stagnation_threshold : ℚ) (session_id : String)
    (session_url : Option String) :
    PollState → List (PollTimes × Option SessionData) → Option SessionResult
  | _, [] => none
  | st, (t, dat) :: rest =>
    match pollStep timeout stagnation_threshold session_id session_url st t dat with
    | .terminal r => some r
    | .again st1 =>
        pollLoop timeout stagnation_threshold session_id session_url st1 rest

/-- Initial loop state of `poll_session_status` started at wall-clock `t0`. -/
def initialPollState (t0 : ℚ) : PollState :=
  { start_time := t0, last_activity_time := t0
    last_status_message := "", last_structured_output := none }

/-! ### Claim Coordinator (src/scripts/devin/DO_gh_alerts_control_center.py)

`requests` responses are passed in as oracles: `ok n i` says whether the
`i`-th PATCH attempt for alert `n` comes back with HTTP 200, and `authResp`
is the outcome of the single `GET /user` used to resolve the acting
credential.  Time spent in `time.sleep` is recorded as trace events. -/

/-- Environment variables read by the coordinator and the session layer. -/
structure Env where
  gh_token : Option String
  devin_bot_username : Option String
  devin_api_key : Option String

/-- Model of `get_github_token` from `DO_config.py`: raises `ValueError` when `GH_TOKEN`
is unset. -/
def get_github_token (e : Env) : Except String String :=
  match e.gh_token with
  | some t => .ok t
  | none => .error "GH_TOKEN environment variable is not set"

/-- Model of `get_devin_api_key` from `DO_config.py`. -/
def get_devin_api_key (e : Env) : Except String String :=
  match e.devin_api_key with
  | some k => .ok k
  | none => .error "DEVIN_API_KEY environment variable is not set"

/-- Model of `_get_authenticated_user`: reads the token, then performs one
`GET https://api.github.com/user`; `authResp` is that call's outcome
(`.error` models the `RuntimeError` raised on a non-200 response or a
missing `login` field). -/
def get_authenticated_user (e : Env) (authResp : Except String String) :
    Except String String :=
  match get_github_token e with
  | .error msg => .error msg
  | .ok _ => authResp

/-- Model of `_get_bot_username`: the configured `DEVIN_BOT_USERNAME`, else one
resolution of the acting credential.  The second component counts how many
times `_get_authenticated_user` was invoked (0 or 1): the source has no cache,
so every call with the variable unset performs its own resolution. -/
def get_bot_username (e : Env) (authResp : Except String String) :
    Except String String × Nat :=
  match e.devin_bot_username with
  | some u => (.ok u, 0)
  | none => (get_authenticated_user e authResp, 1)

/-- Observable timing/request events of the per-alert retry loops. -/
inductive AlertEvent where
  | attempt (alert : Int) (i : Nat)
  | sleep (d : ℚ)
deriving DecidableEq

/-- The `for attempt in range(max_retries)` body for one alert, started at
attempt index `i` with `remaining` attempts left (`remaining = max_retries - i`;
the loop is entered only while `i < max_retries`).  `ok i` is the success of
attempt `i`; after a failed attempt that is not the last one the code sleeps
`retry_delay * 2 ** attempt`.  Returns the per-alert `success` flag and the
attempt/sleep trace. -/
def attemptGo (ok : Nat → Bool) (retry_delay : ℚ) (n : Int) :
    Nat → Nat → Bool × List AlertEvent
  | _, 0 => (false, [])
  | i, remaining + 1 =>
    if ok i then (true, [.attempt n i])
    else if remaining = 0 then (false, [.attempt n i])
    else
      let r := attemptGo ok retry_delay n (i + 1) remaining
      (r.1, .attempt n i :: .sleep (retry_delay * 2 ^ i) :: r.2)

/-- The whole retry loop for one alert (`for attempt in range(max_retries)`). -/
def attemptLoop (ok : Nat → Bool) (retry_delay : ℚ) (max_retries : Nat)
    (n : Int) : Bool × List AlertEvent :=
  attemptGo ok retry_delay n 0 max_retries

/-- Model of `claim_github_alerts` (lines 77-150): token, bot-username resolution, then
the independent per-alert retry loops, each followed by `time.sleep(0.5)`.
Returns the per-alert success dict (or the propagated configuration error),
the event trace, and the number of credential resolutions performed. -/
def claim_github_alerts (e : Env) (authResp : Except String String)
    (ok : Int → Nat → Bool) (_owner _repo : String) (alert_numbers : List Int)
    (max_retries : Nat) (retry_delay : ℚ) :
    Except String (List (Int × Bool)) × List AlertEvent × Nat :=
  match get_github_token e with
  | .error msg => (.error msg, [], 0)
  | .ok _ =>
    match get_bot_username e authResp with
    | (.error msg, k) => (.error msg, [], k)
    | (.ok _, k) =>
      let r := alert_numbers.foldl
        (fun (acc : List (Int × Bool) × List AlertEvent) n =>
          let pr := attemptLoop (ok n) retry_delay max_retries n
          (assocSet n pr.1 acc.1, acc.2 ++ pr.2 ++ [.sleep (1/2)]))
        ([], [])
      (.ok r.1, r.2, k)

/-- Model of `unclaim_github_alerts` (lines 151-222): identical retry structure, no
bot-username resolution. -/
def unclaim_github_alerts (e : Env) (ok : Int → Nat → Bool)
    (_owner _repo : String) (alert_numbers : List Int) (max_retries : Nat)
    (retry_delay : ℚ) :
    Except String (List (Int × Bool)) × List AlertEvent :=
  match get_github_token e with
  | .error msg => (.error msg, [])
  | .ok _ =>
    let r := alert_numbers.foldl
      (fun (acc : List (Int × Bool) × List AlertEvent) n =>
        let pr := attemptLoop (ok n) retry_delay max_retries n
        (assocSet n pr.1 acc.1, acc.2 ++ pr.2 ++ [.sleep (1/2)]))
      ([], [])
    (.ok r.1, r.2)

/-- Model of `close_github_alerts` (lines 224-275): single attempt per alert, no retry;
`closeOk n` is whether the PATCH for alert `n` returns 200 (exceptions are
caught and recorded as failure). Only the returned success dict matters to the
reconciler. -/
def close_github_alerts (closeOk : Int → Bool) (alert_numbers : List Int) :
    List (Int × Bool) :=
  dictOf closeOk alert_numbers

/-! ### Outcome Reconciler (src/scripts/devin/DO_outcomes.py)

The coordinator calls made by `handle_session_outcome` are abstracted to the
per-alert success maps they return: `closeOk n` / `unclaimOk n` is the eventual
success of closing / unclaiming alert `n` in this reconciliation (the retry
behaviour inside those calls is modelled separately above).  The second
component records, in order, which coordinator calls were issued. -/

/-- A claim-state call issued by the reconciler. -/
inductive ClaimCall where
  | close (alert_numbers : List Int)
  | unclaim (alert_numbers : List Int)
deriving DecidableEq

/-- Model of `handle_session_outcome` (`DO_outcomes.py` lines 23-103). -/
def handle_session_outcome (closeOk unclaimOk : Int → Bool)
    (result : SessionResult) : SessionResult × List ClaimCall :=
  let ans := result.alert_numbers
  if ans = [] then (result, [])
  else if result.status = .SUCCESS then
    let close_results := close_github_alerts closeOk ans
    ({ result with
        fixed_alerts := (close_results.filter (fun p => p.2)).map (fun p => p.1)
        unfixed_alerts :=
          (close_results.filter (fun p => !p.2)).map (fun p => p.1) },
      [.close ans])
  else if result.status = .FAILURE then
    -- the unclaim result dict is only used for a warning log
    ({ result with unfixed_alerts := ans }, [.unclaim ans])
  else if result.status = .PARTIAL then
    let fixed := result.fixed_alerts
    let unfixed := ans.filter (fun n => !(fixed.contains n))
    let r1 := if unfixed ≠ [] then { result with unfixed_alerts := unfixed }
              else result
    (r1, (if fixed ≠ [] then [ClaimCall.close fixed] else []) ++
         (if unfixed ≠ [] then [ClaimCall.unclaim unfixed] else []))
  else if result.status = .STUCK ∨ result.status = .TIMEOUT then
    ({ result with unfixed_alerts := ans }, [.unclaim ans])
  else (result, [])

/-! ### Shared Run State (src/scripts/devin/DO_models.py, OrchestratorState)

Each method body runs entirely under the single `threading.Lock`, so the
methods act atomically on the state; they are modelled as pure state
transformers. -/

/-- The `OrchestratorState` registry: session→alerts map, session→batch map, result list. -/
structure OrchestratorState where
  session_to_alerts : List (String × List Int) := []
  session_to_batch : List (String × String) := []
  results : List SessionResult := []
deriving DecidableEq

/-- Model of `register_session`: inserts the session id into both maps. -/
def register_session (st : OrchestratorState) (session_id batch_id : String)
    (alert_numbers : List Int) : OrchestratorState :=
  { st with
    session_to_alerts := assocSet session_id alert_numbers st.session_to_alerts
    session_to_batch := assocSet session_id batch_id st.session_to_batch }

/-- Model of `add_result`: appends to the result list. -/
def add_result (st : OrchestratorState) (r : SessionResult) :
    OrchestratorState :=
  { st with results := st.results ++ [r] }

/-- Model of `get_alerts_for_session`: read-only lookup with `[]` default. -/
def get_alerts_for_session (st : OrchestratorState) (session_id : String) :
    List Int :=
  (assocFind session_id st.session_to_alerts).getD []

/-! ### Dispatch Scheduler (src/scripts/devin/DO_batch_processor.py) -/

/-- One entry of a batch's `tasks` list. -/
structure BatchTask where
  alert_number : Option Int
  file : String := ""
  line : Nat := 0
  source : Option String := none

/-- A remediation batch: `{severity: float, tasks: [...]}`. -/
structure BatchData where
  severity : ℚ := 0
  tasks : List BatchTask := []

/-- Model of `extract_alert_numbers` (lines 24-45): the non-null `alert_number` fields. -/
def extract_alert_numbers (bd : BatchData) : List Int :=
  bd.tasks.filterMap (fun t => t.alert_number)

/-- External-world responses one `process_batch` execution can observe.
`.error` anywhere models an unexpected exception (with its text) raised by
that stage; `reconcileExc` injects an exception inside
`handle_session_outcome`. -/
structure PBOracles where
  claimOk : Int → Nat → Bool
  authResp : Except String String
  createResp : Except String (Option (String × Option String))
  pollOutcome : Except String SessionResult
  closeOk : Int → Bool
  unclaimOk : Int → Bool
  reconcileExc : Option String

/-- Observable actions of one `process_batch` execution, in program order. -/
inductive PBEffect where
  | claimCall (alert_numbers : List Int)
  | acquire
  | createCall
  | register (session_id batch_id : String) (alert_numbers : List Int)
  | pollCall (session_id : String)
  | closeCall (alert_numbers : List Int)
  | unclaimCall (alert_numbers : List Int)
  | addResult
  | sleepMessage (session_id : String)
  | release
deriving DecidableEq

/-- Reconciler calls as batch-processor effects. -/
def claimCallToEffect : ClaimCall → PBEffect
  | .close ns => .closeCall ns
  | .unclaim ns => .unclaimCall ns

/-- The `try:` body of `process_batch` (lines 133-172): session creation,
registration, polling, reconciliation, result recording.  Returns the body's
outcome, its effects, and the `session_id` local variable as the `finally:`
block sees it (`""` until creation succeeds). -/
def pbTryBody (e : Env) (o : PBOracles) (batch_id : String) (ns : List Int) :
    Except String SessionResult × List PBEffect × String :=
  -- create_devin_session first reads DEVIN_API_KEY (raising ValueError when
  -- unset) and only then performs the HTTP POST
  match get_devin_api_key e with
  | .error msg => (.error msg, [], "")
  | .ok _ =>
    match o.createResp with
    | .error msg => (.error msg, [.createCall], "")
    | .ok none =>
      (.ok { status := .FAILURE, session_id := "", batch_id := batch_id
             alert_numbers := ns
             error_message := some "Failed to create Devin session" },
        [.createCall], "")
    | .ok (some (sid, _surl)) =>
      let effs0 : List PBEffect := [.createCall, .register sid batch_id ns]
      match o.pollOutcome with
      | .error msg => (.error msg, effs0 ++ [.pollCall sid], sid)
      | .ok r0 =>
        let r1 := { r0 with batch_id := batch_id, alert_numbers := ns }
        match o.reconcileExc with
        | some msg => (.error msg, effs0 ++ [.pollCall sid], sid)
        | none =>
          let hr := handle_session_outcome o.closeOk o.unclaimOk r1
          (.ok hr.1,
            effs0 ++ [.pollCall sid] ++ hr.2.map claimCallToEffect ++
              [.addResult],
            sid)

/-- The `finally:` block of `process_batch` (lines 174-181): when a session
was created, `send_sleep_message` runs first — it re-reads `DEVIN_API_KEY`
and would raise before the semaphore release if the key were unset — then the
slot is released when a semaphore was supplied. -/
def pbFinally (e : Env) (sem : Bool) (sid : String)
    (body : Except String SessionResult × List PBEffect) :
    Except String SessionResult × List PBEffect :=
  if sid ≠ "" then
    match get_devin_api_key e with
    | .error msg => (.error msg, body.2)
    | .ok _ =>
      (body.1, body.2 ++ [.sleepMessage sid] ++
        (if sem then [.release] else []))
  else (body.1, body.2 ++ (if sem then [.release] else []))

/-- Model of `process_batch` (lines 47-181), with `dashboard = None`.  `sem` records
whether a session-slot semaphore was passed.  The prompt construction
(`create_devin_prompt`) is pure string formatting with no observable effect
and is omitted. -/
def process_batch (e : Env) (o : PBOracles) (owner repo : String) (sem : Bool)
    (batch_id : String) (bd : BatchData) :
    Except String SessionResult × List PBEffect :=
  let ns := extract_alert_numbers bd
  if ns = [] then
    (.ok { status := .FAILURE, session_id := "", batch_id := batch_id
           alert_numbers := []
           error_message := some "No alerts found in batch data" }, [])
  else
    match claim_github_alerts e o.authResp o.claimOk owner repo ns 3 2 with
    | (.error msg, _, _) => (.error msg, [.claimCall ns])
    | (.ok claim_results, _, _) =>
      let claimed := (claim_results.filter (fun p => p.2)).map (fun p => p.1)
      let failed_claims :=
        (claim_results.filter (fun p => !p.2)).map (fun p => p.1)
      if claimed = [] then
        (.ok { status := .FAILURE, session_id := "", batch_id := batch_id
               alert_numbers := ns
               error_message :=
                 some ("Failed to claim alerts: " ++ toString failed_claims) },
          [.claimCall ns])
      else
        let ns2 := if failed_claims ≠ [] then claimed else ns
        let acq : List PBEffect := if sem then [.acquire] else []
        let tb := pbTryBody e o batch_id ns2
        let fin := pbFinally e sem tb.2.2 (tb.1, tb.2.1)
        (fin.1, .claimCall ns :: acq ++ fin.2)

/-- The fan-in conversion of `dispatch_threads` (lines 245-259): a worker
exception becomes a FAILURE result carrying the exception text. -/
def fanIn (batch_id : String) : Except String SessionResult → SessionResult
  | .ok r => r
  | .error msg =>
    { status := .FAILURE, session_id := "", batch_id := batch_id
      alert_numbers := [], error_message := some msg }

/-- Model of `dispatch_threads` (lines 184-261).  `order` is `batches.items()` in the
completion order `as_completed` yields the futures (any permutation of the
submitted batches); each batch's external-world responses are given by
`oracleFor`. -/
def dispatch_threads (e : Env) (oracleFor : String → PBOracles)
    (owner repo : String) (order : List (String × BatchData)) :
    List SessionResult :=
  if order.isEmpty then []
  else order.map (fun p =>
    fanIn p.1 (process_batch e (oracleFor p.1) owner repo true p.1 p.2).1)

/-- The attempt indices recorded for a given alert in an event trace. -/
def attemptEvents (alert : Int) (l : List AlertEvent) : List Nat :=
  l.filterMap (fun e =>
    match e with
    | .attempt a i => if a = alert then some i else none
    | .sleep _ => none)

/-- The per-alert event segment contributed by one loop iteration of
`claim_github_alerts` / `unclaim_github_alerts`: the retry-loop trace followed
by the fixed `time.sleep(0.5)` rate-limit pause. -/
def alertSegment (ok : Int → Nat → Bool) (retry_delay : ℚ) (max_retries : Nat)
    (n : Int) : List AlertEvent :=
  (attemptLoop (ok n) retry_delay max_retries n).2 ++ [.sleep (1/2)]

/-- Total number of credential resolutions performed by a process that runs
`claim_github_alerts` once per element of `ops` (one orchestrator run issues
one claim operation per batch). -/
def claimOpsResolutionTotal (e : Env) (authResp : Except String String)
    (ok : Int → Nat → Bool) (owner repo : String) (ops : List (List Int)) :
    Nat :=
  (ops.map (fun ns =>
    (claim_github_alerts e authResp ok owner repo ns 3 2).2.2)).sum

/-- Spec reading for C9, taken from the claim's words: scanning forward from
an attempt event, a sleep of exactly the fixed pause duration occurs before
the next attempt event begins. -/
def pauseBeforeNextAttempt (pause : ℚ) : List AlertEvent → Bool
  | [] => false
  | .attempt _ _ :: _ => false
  | .sleep q :: rest => q = pause || pauseBeforeNextAttempt pause rest

/-- Spec reading for C9, taken from the claim's words: a fixed-duration pause
follows every per-alert request attempt (successful or failed), in addition to
any backoff sleeps. -/
def fixedPauseFollowsEveryAttempt (pause : ℚ) : List AlertEvent → Bool
  | [] => true
  | .attempt _ _ :: rest =>
      pauseBeforeNextAttempt pause rest && fixedPauseFollowsEveryAttempt pause rest
  | .sleep _ :: rest => fixedPauseFollowsEveryAttempt pause rest

/-! ### Helper lemmas -/

theorem assocKeys_assocSet {α β : Type} [DecidableEq α] (k : α) (v : β)
    (l : List (α × β)) :
    assocKeys (assocSet k v l) =
      if k ∈ assocKeys l then assocKeys l else assocKeys l ++ [k] := by
  induction l with
  | nil => simp [assocSet, assocKeys]
  | cons p rest ih =>
    obtain ⟨k2, v2⟩ := p
    by_cases hk : k = k2
    · subst hk
      simp [assocSet, assocKeys]
    · simp only [assocSet, if_neg hk, assocKeys, List.map_cons] at *
      by_cases hmem : k ∈ assocKeys rest
      · simp [assocKeys] at hmem
        simp [hmem, List.mem_cons, hk, ih, assocKeys]
      · simp [assocKeys] at hmem
        simp [hmem, List.mem_cons, hk, ih, assocKeys]

theorem mem_assocKeys_assocSet {α β : Type} [DecidableEq α] (k k' : α) (v : β)
    (l : List (α × β)) (h : k' ∈ assocKeys l) :
    k' ∈ assocKeys (assocSet k v l) := by
  rw [assocKeys_assocSet]
  by_cases hm : k ∈ assocKeys l <;> simp [hm, h]

theorem self_mem_assocKeys_assocSet {α β : Type} [DecidableEq α] (k : α)
    (v : β) (l : List (α × β)) : k ∈ assocKeys (assocSet k v l) := by
  rw [assocKeys_assocSet]
  by_cases hm : k ∈ assocKeys l <;> simp [hm]

theorem assocSet_of_not_mem {α β : Type} [DecidableEq α] (k : α) (v : β)
    (l : List (α × β)) (h : k ∉ assocKeys l) :
    assocSet k v l = l ++ [(k, v)] := by
  induction l with
  | nil => simp [assocSet]
  | cons p rest ih =>
    obtain ⟨k2, v2⟩ := p
    simp only [assocKeys, List.map_cons, List.mem_cons] at h
    push_neg at h
    simp only [assocSet, if_neg h.1, List.cons_append, List.cons.injEq, true_and]
    exact ih h.2

theorem dictOf_nodup {α β : Type} [DecidableEq α] (f : α → β) (l : List α)
    (h : l.Nodup) : dictOf f l = l.map (fun n => (n, f n)) := by
  suffices H : ∀ acc : List (α × β), (∀ n ∈ l, n ∉ assocKeys acc) →
      l.foldl (fun acc n => assocSet n (f n) acc) acc =
        acc ++ l.map (fun n => (n, f n)) by
    simpa [dictOf] using H [] (by simp [assocKeys])
  induction l with
  | nil => simp
  | cons a rest ih =>
    intro acc hacc
    simp only [List.foldl_cons, List.map_cons]
    rw [List.nodup_cons] at h
    rw [ih h.2 (assocSet a (f a) acc) ?_]
    · rw [assocSet_of_not_mem a (f a) acc (hacc a (by simp))]
      simp
    · intro n hn
      rw [assocSet_of_not_mem a (f a) acc (hacc a (by simp))]
      simp only [assocKeys, List.map_append, List.mem_append]
      rintro (hmem | hmem)
      · exact hacc n (by simp [hn]) hmem
      · simp at hmem
        exact h.1 (hmem ▸ hn)

theorem filter_true_keys {α : Type} (f : α → Bool) (l : List α) :
    (((l.map (fun n => (n, f n))).filter (fun p => p.2)).map (fun p => p.1)) =
      l.filter f := by
  induction l with
  | nil => simp
  | cons a rest ih =>
    by_cases h : f a <;> simp [List.filter_cons, h, ih]

theorem filter_false_keys {α : Type} (f : α → Bool) (l : List α) :
    (((l.map (fun n => (n, f n))).filter (fun p => !p.2)).map (fun p => p.1)) =
      l.filter (fun n => !f n) := by
  induction l with
  | nil => simp
  | cons a rest ih =>
    by_cases h : f a <;> simp [List.filter_cons, h, ih]

theorem mem_attemptEvents (n : Int) (i : Nat) (l : List AlertEvent) :
    i ∈ attemptEvents n l ↔ AlertEvent.attempt n i ∈ l := by
  induction l with
  | nil => simp [attemptEvents]
  | cons e rest ih =>
    cases e with
    | attempt a j =>
      by_cases h : a = n
      · subst h
        simp [attemptEvents, List.filterMap_cons] at ih ⊢
        rw [ih]
      · have hna : ¬ n = a := fun hh => h hh.symm
        have hcons : attemptEvents n (AlertEvent.attempt a j :: rest) =
            attemptEvents n rest := by
          simp [attemptEvents, List.filterMap_cons, h]
        rw [hcons, ih]
        simp [hna]
    | sleep q =>
      simp [attemptEvents, List.filterMap_cons] at ih ⊢
      rw [ih]

theorem attemptEvents_append (n : Int) (l1 l2 : List AlertEvent) :
    attemptEvents n (l1 ++ l2) = attemptEvents n l1 ++ attemptEvents n l2 := by
  simp [attemptEvents, List.filterMap_append]

theorem attemptGo_attempt_mem (ok : Nat → Bool) (d : ℚ) (n : Int) :
    ∀ rem i a j, AlertEvent.attempt a j ∈ (attemptGo ok d n i rem).2 →
      a = n ∧ i ≤ j ∧ j < i + rem ∧ ∀ k, i ≤ k → k < j → ok k = false := by
  intro rem
  induction rem with
  | zero => intro i a j h; simp [attemptGo] at h
  | succ rr ih =>
    intro i a j h
    by_cases hok : ok i
    · simp [attemptGo, hok] at h
      obtain ⟨ha, hji⟩ := h
      exact ⟨ha, by omega, by omega, fun k hk1 hk2 => by omega⟩
    · by_cases hrr : rr = 0
      · subst hrr
        simp [attemptGo, hok] at h
        obtain ⟨ha, hji⟩ := h
        exact ⟨ha, by omega, by omega, fun k hk1 hk2 => by omega⟩
      · simp only [attemptGo, if_neg hok, if_neg hrr] at h
        rcases List.mem_cons.mp h with heq | h2
        · cases heq
          refine ⟨rfl, by omega, by omega, fun k hk1 hk2 => by omega⟩
        · rcases List.mem_cons.mp h2 with heq | h3
          · cases heq
          · obtain ⟨ha, hij, hlt, hall⟩ := ih (i + 1) a j h3
            refine ⟨ha, by omega, by omega, fun k hk1 hk2 => ?_⟩
            rcases Nat.eq_or_lt_of_le hk1 with hk | hk
            · rw [← hk]; exact Bool.eq_false_iff.mpr hok
            · exact hall k (by omega) hk2

theorem attemptEvents_attemptGo_ne (ok : Nat → Bool) (d : ℚ) (n n' : Int)
    (h : n ≠ n') (rem i : Nat) :
    attemptEvents n' (attemptGo ok d n i rem).2 = [] := by
  rw [List.eq_nil_iff_forall_not_mem]
  intro j hj
  rw [mem_attemptEvents] at hj
  exact h (attemptGo_attempt_mem ok d n rem i n' j hj).1.symm

theorem attemptGo_count_le (ok : Nat → Bool) (d : ℚ) (n : Int) :
    ∀ rem i, (attemptEvents n (attemptGo ok d n i rem).2).length ≤ rem := by
  intro rem
  induction rem with
  | zero => intro i; simp [attemptGo, attemptEvents]
  | succ rr ih =>
    intro i
    by_cases hok : ok i
    · simp [attemptGo, hok, attemptEvents]
    · by_cases hrr : rr = 0
      · subst hrr; simp [attemptGo, hok, attemptEvents]
      · simp only [attemptGo, if_neg hok, if_neg hrr]
        have := ih (i + 1)
        simp only [attemptEvents, List.filterMap_cons] at this ⊢
        simpa using this

theorem attemptGo_count_fail (ok : Nat → Bool) (d : ℚ) (n : Int) :
    ∀ rem i, (attemptGo ok d n i rem).1 = false →
      (attemptEvents n (attemptGo ok d n i rem).2).length = rem := by
  intro rem
  induction rem with
  | zero => intro i _; simp [attemptGo, attemptEvents]
  | succ rr ih =>
    intro i hfail
    by_cases hok : ok i
    · simp [attemptGo, hok] at hfail
    · by_cases hrr : rr = 0
      · subst hrr; simp [attemptGo, hok, attemptEvents]
      · simp only [attemptGo, if_neg hok, if_neg hrr] at hfail ⊢
        have := ih (i + 1) hfail
        simp only [attemptEvents, List.filterMap_cons] at this ⊢
        simpa using this

theorem attemptGo_success_iff (ok : Nat → Bool) (d : ℚ) (n : Int) :
    ∀ rem i, (attemptGo ok d n i rem).1 = true ↔
      ∃ j, i ≤ j ∧ j < i + rem ∧ ok j = true := by
  intro rem
  induction rem with
  | zero =>
    intro i
    simp only [attemptGo]
    constructor
    · intro h; exact absurd h (by simp)
    · rintro ⟨j, h1, h2, _⟩; omega
  | succ rr ih =>
    intro i
    by_cases hok : ok i
    · simp [attemptGo, hok]
      exact ⟨i, le_refl i, by omega, hok⟩
    · by_cases hrr : rr = 0
      · subst hrr
        constructor
        · intro h
          simp [attemptGo, hok] at h
        · rintro ⟨j, h1, h2, h3⟩
          have hji : j = i := by omega
          rw [hji] at h3
          exact absurd h3 hok
      · simp only [attemptGo, if_neg hok, if_neg hrr]
        rw [ih (i + 1)]
        constructor
        · rintro ⟨j, h1, h2, h3⟩; exact ⟨j, by omega, by omega, h3⟩
        · rintro ⟨j, h1, h2, h3⟩
          refine ⟨j, ?_, by omega, h3⟩
          rcases Nat.eq_or_lt_of_le h1 with hk | hk
          · rw [← hk] at h3; exact absurd h3 (by simp [hok])
          · omega

theorem attemptGo_head (ok : Nat → Bool) (d : ℚ) (n : Int) (i rem : Nat)
    (h : rem ≠ 0) :
    ∃ tl, (attemptGo ok d n i rem).2 = .attempt n i :: tl := by
  cases rem with
  | zero => exact absurd rfl h
  | succ rr =>
    by_cases hok : ok i
    · exact ⟨[], by simp [attemptGo, hok]⟩
    · by_cases hrr : rr = 0
      · subst hrr; exact ⟨[], by simp [attemptGo, hok]⟩
      · exact ⟨.sleep (d * 2 ^ i) :: (attemptGo ok d n (i + 1) rr).2,
          by simp [attemptGo, hok, hrr]⟩

theorem attemptGo_last (ok : Nat → Bool) (d : ℚ) (n : Int) :
    ∀ rem i, rem ≠ 0 →
      ∃ pre j, (attemptGo ok d n i rem).2 = pre ++ [AlertEvent.attempt n j] := by
  intro rem
  induction rem with
  | zero => intro i h; exact absurd rfl h
  | succ rr ih =>
    intro i _
    by_cases hok : ok i
    · exact ⟨[], i, by simp [attemptGo, hok]⟩
    · by_cases hrr : rr = 0
      · subst hrr; exact ⟨[], i, by simp [attemptGo, hok]⟩
      · obtain ⟨pre, j, hpre⟩ := ih (i + 1) hrr
        refine ⟨.attempt n i :: .sleep (d * 2 ^ i) :: pre, j, ?_⟩
        simp [attemptGo, hok, hrr, hpre]

theorem attemptGo_consec (ok : Nat → Bool) (d : ℚ) (n : Int) :
    ∀ rem i j, i ≤ j → AlertEvent.attempt n (j + 1) ∈ (attemptGo ok d n i rem).2 →
      ∃ pre post, (attemptGo ok d n i rem).2 =
        pre ++ .attempt n j :: .sleep (d * 2 ^ j) ::
          .attempt n (j + 1) :: post := by
  intro rem
  induction rem with
  | zero => intro i j _ h; simp [attemptGo] at h
  | succ rr ih =>
    intro i j hij h
    by_cases hok : ok i
    · simp [attemptGo, hok] at h
      omega
    · by_cases hrr : rr = 0
      · subst hrr
        simp [attemptGo, hok] at h
        omega
      · simp only [attemptGo, if_neg hok, if_neg hrr] at h ⊢
        rcases List.mem_cons.mp h with heq | h2
        · cases heq; omega
        · rcases List.mem_cons.mp h2 with heq | h3
          · cases heq
          · rcases Nat.eq_or_lt_of_le hij with hk | hk
            · -- j = i: the recursive trace starts exactly with attempt (i+1)
              subst hk
              obtain ⟨tl, htl⟩ := attemptGo_head ok d n (i + 1) rr hrr
              refine ⟨[], tl, ?_⟩
              simp [htl]
            · obtain ⟨pre, post, hpp⟩ := ih (i + 1) j (by omega) h3
              exact ⟨.attempt n i :: .sleep (d * 2 ^ i) :: pre, post,
                by simp [hpp]⟩

theorem alert_fold_eq (ok : Int → Nat → Bool) (m : Nat) (d : ℚ) :
    ∀ (ns : List Int) (dacc : List (Int × Bool)) (eacc : List AlertEvent),
      ns.foldl (fun (acc : List (Int × Bool) × List AlertEvent) n =>
        let pr := attemptLoop (ok n) d m n
        (assocSet n pr.1 acc.1, acc.2 ++ pr.2 ++ [.sleep (1/2)])) (dacc, eacc) =
      (ns.foldl (fun acc n => assocSet n (attemptLoop (ok n) d m n).1 acc) dacc,
        eacc ++ (ns.map (alertSegment ok d m)).flatten) := by
  intro ns
  induction ns with
  | nil => intro dacc eacc; simp
  | cons a rest ih =>
    intro dacc eacc
    simp only [List.foldl_cons, List.map_cons, List.flatten_cons]
    rw [ih]
    simp [alertSegment, List.append_assoc]

theorem claim_github_alerts_ok (e : Env) (ar : Except String String)
    (ok : Int → Nat → Bool) (owner repo : String) (ns : List Int) (m : Nat)
    (d : ℚ) (tok u : String) (htok : e.gh_token = some tok)
    (hbu : (get_bot_username e ar).1 = .ok u) :
    claim_github_alerts e ar ok owner repo ns m d =
      (.ok (dictOf (fun n => (attemptLoop (ok n) d m n).1) ns),
        (ns.map (alertSegment ok d m)).flatten,
        (get_bot_username e ar).2) := by
  unfold claim_github_alerts
  rw [show get_github_token e = .ok tok from by simp [get_github_token, htok]]
  rcases hgb : get_bot_username e ar with ⟨res, k⟩
  rw [hgb] at hbu
  simp only at hbu
  cases res with
  | error msg => exact absurd hbu (by simp)
  | ok v =>
    simp only
    rw [alert_fold_eq]
    simp [dictOf]

theorem unclaim_github_alerts_ok (e : Env) (ok : Int → Nat → Bool)
    (owner repo : String) (ns : List Int) (m : Nat) (d : ℚ) (tok : String)
    (htok : e.gh_token = some tok) :
    unclaim_github_alerts e ok owner repo ns m d =
      (.ok (dictOf (fun n => (attemptLoop (ok n) d m n).1) ns),
        (ns.map (alertSegment ok d m)).flatten) := by
  unfold unclaim_github_alerts
  rw [show get_github_token e = .ok tok from by simp [get_github_token, htok]]
  simp only
  rw [alert_fold_eq]
  simp [dictOf]

theorem assocFind_map {α β : Type} [DecidableEq α] (f : α → β) :
    ∀ (l : List α) (n : α), l.Nodup → n ∈ l →
      assocFind n (l.map (fun x => (x, f x))) = some (f n) := by
  intro l
  induction l with
  | nil => intro n _ h; simp at h
  | cons a rest ih =>
    intro n hnd hmem
    rw [List.nodup_cons] at hnd
    by_cases h : n = a
    · subst h
      simp [assocFind]
    · rcases List.mem_cons.mp hmem with heq | hm
      · exact absurd heq h
      · simp only [List.map_cons, assocFind, if_neg h]
        exact ih n hnd.2 hm

theorem assocFind_dictOf {α β : Type} [DecidableEq α] (f : α → β)
    (l : List α) (n : α) (hnd : l.Nodup) (hmem : n ∈ l) :
    assocFind n (dictOf f l) = some (f n) := by
  rw [dictOf_nodup f l hnd]
  exact assocFind_map f l n hnd hmem

theorem flatten_segment {α β : Type} [DecidableEq α] (seg : α → List β) :
    ∀ (l : List α) (n : α), n ∈ l →
      ∃ pre post, (l.map seg).flatten = pre ++ seg n ++ post := by
  intro l
  induction l with
  | nil => intro n h; simp at h
  | cons a rest ih =>
    intro n hmem
    by_cases h : n = a
    · subst h
      exact ⟨[], ((rest.map seg).flatten), by simp⟩
    · rcases List.mem_cons.mp hmem with heq | hm
      · exact absurd heq h
      · obtain ⟨pre, post, hpp⟩ := ih n hm
        exact ⟨seg a ++ pre, post, by simp [hpp]⟩

theorem attemptEvents_alertSegment_ne (ok : Int → Nat → Bool) (d : ℚ)
    (m : Nat) (a n : Int) (h : a ≠ n) :
    attemptEvents n (alertSegment ok d m a) = [] := by
  simp only [alertSegment, attemptEvents_append, attemptLoop]
  rw [attemptEvents_attemptGo_ne (ok a) d a n h m 0]
  simp [attemptEvents]

theorem attemptEvents_alertSegment_self (ok : Int → Nat → Bool) (d : ℚ)
    (m : Nat) (n : Int) :
    attemptEvents n (alertSegment ok d m n) =
      attemptEvents n (attemptLoop (ok n) d m n).2 := by
  simp only [alertSegment, attemptEvents_append, attemptLoop]
  simp [attemptEvents]

theorem attemptEvents_flatten_not_mem (ok : Int → Nat → Bool) (d : ℚ)
    (m : Nat) : ∀ (ns : List Int) (n : Int), n ∉ ns →
      attemptEvents n ((ns.map (alertSegment ok d m)).flatten) = [] := by
  intro ns
  induction ns with
  | nil => intro n _; simp [attemptEvents]
  | cons a rest ih =>
    intro n hmem
    simp only [List.map_cons, List.flatten_cons, attemptEvents_append]
    rw [attemptEvents_alertSegment_ne ok d m a n (by rintro rfl; simp at hmem),
      ih n (by intro hc; exact hmem (List.mem_cons_of_mem a hc))]
    simp

theorem attemptEvents_flatten_eq (ok : Int → Nat → Bool) (d : ℚ) (m : Nat) :
    ∀ (ns : List Int) (n : Int), ns.Nodup → n ∈ ns →
      attemptEvents n ((ns.map (alertSegment ok d m)).flatten) =
        attemptEvents n (attemptLoop (ok n) d m n).2 := by
  intro ns
  induction ns with
  | nil => intro n _ h; simp at h
  | cons a rest ih =>
    intro n hnd hmem
    rw [List.nodup_cons] at hnd
    simp only [List.map_cons, List.flatten_cons, attemptEvents_append]
    by_cases h : n = a
    · subst h
      rw [attemptEvents_alertSegment_self,
        attemptEvents_flatten_not_mem ok d m rest n hnd.1]
      simp [attemptLoop]
    · rcases List.mem_cons.mp hmem with heq | hm
      · exact absurd heq h
      · rw [attemptEvents_alertSegment_ne ok d m a n (fun hc => h hc.symm),
          ih n hnd.2 hm]
        simp

theorem attemptGo_success_mem (ok : Nat → Bool) (d : ℚ) (n : Int) :
    ∀ rem i, (attemptGo ok d n i rem).1 = true →
      ∃ j, AlertEvent.attempt n j ∈ (attemptGo ok d n i rem).2 ∧
        ok j = true := by
  intro rem
  induction rem with
  | zero => intro i h; simp [attemptGo] at h
  | succ rr ih =>
    intro i h
    by_cases hok : ok i
    · exact ⟨i, by simp [attemptGo, hok], hok⟩
    · by_cases hrr : rr = 0
      · subst hrr; simp [attemptGo, hok] at h
      · simp only [attemptGo, if_neg hok, if_neg hrr] at h ⊢
        obtain ⟨j, hj, hokj⟩ := ih (i + 1) h
        exact ⟨j, by simp [hj], hokj⟩

/-- The per-alert retry discipline of the claim/unclaim loop, stated on the
event trace and success dict the loop produces. -/
theorem trace_discipline (ok1 : Int → Nat → Bool) (d : ℚ) (m : Nat)
    (ns : List Int) (n : Int) (hnd : ns.Nodup) (hmem : n ∈ ns) :
    (attemptEvents n ((ns.map (alertSegment ok1 d m)).flatten)).length ≤ m ∧
    (∀ i, i ∈ attemptEvents n ((ns.map (alertSegment ok1 d m)).flatten) →
      ∀ j, j < i → ok1 n j = false) ∧
    (assocFind n (dictOf (fun x => (attemptLoop (ok1 x) d m x).1) ns) =
        some false →
      (attemptEvents n ((ns.map (alertSegment ok1 d m)).flatten)).length = m ∧
      ∀ j, j < m → ok1 n j = false) ∧
    (assocFind n (dictOf (fun x => (attemptLoop (ok1 x) d m x).1) ns) =
        some true →
      ∃ i, i ∈ attemptEvents n ((ns.map (alertSegment ok1 d m)).flatten) ∧
        ok1 n i = true) ∧
    (∀ i, (i + 1) ∈ attemptEvents n ((ns.map (alertSegment ok1 d m)).flatten) →
      ∃ pre post, (ns.map (alertSegment ok1 d m)).flatten =
        pre ++ AlertEvent.attempt n i :: AlertEvent.sleep (d * 2 ^ i) ::
          AlertEvent.attempt n (i + 1) :: post) := by
  have hT := attemptEvents_flatten_eq ok1 d m ns n hnd hmem
  have hfind := assocFind_dictOf (fun x => (attemptLoop (ok1 x) d m x).1) ns n
    hnd hmem
  refine ⟨?_, ?_, ?_, ?_, ?_⟩
  · rw [hT]
    simpa [attemptLoop] using attemptGo_count_le (ok1 n) d n m 0
  · intro i hi j hj
    rw [hT, mem_attemptEvents] at hi
    have hmem2 := attemptGo_attempt_mem (ok1 n) d n m 0 n i
      (by simpa [attemptLoop] using hi)
    exact hmem2.2.2.2 j (by omega) hj
  · intro hfalse
    rw [hfind, Option.some_inj] at hfalse
    constructor
    · rw [hT]
      simpa [attemptLoop] using attemptGo_count_fail (ok1 n) d n m 0
        (by simpa [attemptLoop] using hfalse)
    · intro j hj
      by_contra hc
      have hs : (attemptGo (ok1 n) d n 0 m).1 = true :=
        (attemptGo_success_iff (ok1 n) d n m 0).mpr
          ⟨j, by omega, by omega, by revert hc; cases ok1 n j <;> simp⟩
      simp only [attemptLoop] at hfalse
      rw [hfalse] at hs
      exact absurd hs (by simp)
  · intro htrue
    rw [hfind, Option.some_inj] at htrue
    obtain ⟨j, hj, hokj⟩ := attemptGo_success_mem (ok1 n) d n m 0
      (by simpa [attemptLoop] using htrue)
    refine ⟨j, ?_, hokj⟩
    rw [hT, mem_attemptEvents]
    simpa [attemptLoop] using hj
  · intro i hi
    rw [hT, mem_attemptEvents] at hi
    obtain ⟨pre1, post1, h1⟩ := attemptGo_consec (ok1 n) d n m 0 i
      (Nat.zero_le i) (by simpa [attemptLoop] using hi)
    obtain ⟨pre0, post0, h0⟩ :=
      flatten_segment (alertSegment ok1 d m) ns n hmem
    refine ⟨pre0 ++ pre1,
      post1 ++ AlertEvent.sleep (1/2) :: post0, ?_⟩
    rw [h0]
    simp only [alertSegment, attemptLoop] at h1 ⊢
    rw [h1]
    simp

theorem handle_session_outcome_alert_numbers (closeOk unclaimOk : Int → Bool)
    (r : SessionResult) :
    (handle_session_outcome closeOk unclaimOk r).1.alert_numbers =
      r.alert_numbers := by
  unfold handle_session_outcome
  by_cases h : r.alert_numbers = []
  · simp [h]
  · simp only [if_neg h]
    repeat' split
    all_goals simp

theorem handle_session_outcome_status (closeOk unclaimOk : Int → Bool)
    (r : SessionResult) :
    (handle_session_outcome closeOk unclaimOk r).1.status = r.status := by
  unfold handle_session_outcome
  by_cases h : r.alert_numbers = []
  · simp [h]
  · simp only [if_neg h]
    repeat' split
    all_goals simp

theorem claimCallToEffect_not_acquire_release (c : ClaimCall) :
    claimCallToEffect c ≠ PBEffect.acquire ∧
    claimCallToEffect c ≠ PBEffect.release ∧
    (∀ sid bid2 ms, claimCallToEffect c ≠ PBEffect.register sid bid2 ms) ∧
    claimCallToEffect c ≠ PBEffect.createCall := by
  cases c <;> simp [claimCallToEffect]

theorem pbTryBody_effects (e : Env) (o : PBOracles) (bid : String)
    (ns : List Int) :
    ∀ x ∈ (pbTryBody e o bid ns).2.1,
      x ≠ PBEffect.acquire ∧ x ≠ PBEffect.release ∧
      (∀ sid bid2 ms, x = PBEffect.register sid bid2 ms → ms = ns) := by
  intro x hx
  unfold pbTryBody at hx
  rcases hkey : get_devin_api_key e with msg | key <;> rw [hkey] at hx
  · simp at hx
  rcases hcr : o.createResp with msg | ocr <;> rw [hcr] at hx
  · simp at hx
    subst hx
    simp
  rcases ocr with _ | ⟨sid, surl⟩
  · simp at hx
    subst hx
    simp
  rcases hpo : o.pollOutcome with msg | r0 <;> rw [hpo] at hx
  · simp at hx
    rcases hx with hx | hx | hx <;> subst hx <;> simp
  rcases hre : o.reconcileExc with _ | msg <;> rw [hre] at hx
  · simp at hx
    rcases hx with hx | hx | hx | hx | hx
    · subst hx; simp
    · subst hx
      refine ⟨by simp, by simp, ?_⟩
      intro sid2 bid2 ms hx2
      rw [PBEffect.register.injEq] at hx2
      exact hx2.2.2.symm
    · subst hx; simp
    · obtain ⟨c, _, hc⟩ := hx
      subst hc
      have := claimCallToEffect_not_acquire_release c
      exact ⟨this.1, this.2.1, fun sid2 bid2 ms hms =>
        absurd hms (this.2.2.1 sid2 bid2 ms)⟩
    · subst hx; simp
  · simp at hx
    rcases hx with hx | hx | hx
    · subst hx; simp
    · subst hx
      refine ⟨by simp, by simp, ?_⟩
      intro sid2 bid2 ms hx2
      rw [PBEffect.register.injEq] at hx2
      exact hx2.2.2.symm
    · subst hx; simp

theorem pbTryBody_sid_empty (e : Env) (o : PBOracles) (bid : String)
    (ns : List Int) (h : e.devin_api_key = none) :
    (pbTryBody e o bid ns).2.2 = "" := by
  unfold pbTryBody
  rw [show get_devin_api_key e = .error
    "DEVIN_API_KEY environment variable is not set" from by
      simp [get_devin_api_key, h]]

theorem pbTryBody_ok_alert_numbers (e : Env) (o : PBOracles) (bid : String)
    (ns : List Int) (r : SessionResult)
    (h : (pbTryBody e o bid ns).1 = .ok r) : r.alert_numbers = ns := by
  unfold pbTryBody at h
  rcases hkey : get_devin_api_key e with msg | key <;> rw [hkey] at h
  · simp at h
  rcases hcr : o.createResp with msg | ocr <;> rw [hcr] at h
  · simp at h
  rcases ocr with _ | ⟨sid, surl⟩
  · simp at h
    rw [← h]
  rcases hpo : o.pollOutcome with msg | r0 <;> rw [hpo] at h
  · simp at h
  rcases hre : o.reconcileExc with _ | msg <;> rw [hre] at h
  · simp at h
    rw [← h, handle_session_outcome_alert_numbers]
  · simp at h

theorem pbFinally_ok (e : Env) (sem : Bool) (sid : String)
    (body : Except String SessionResult × List PBEffect) (r : SessionResult)
    (h : (pbFinally e sem sid body).1 = .ok r) : body.1 = .ok r := by
  unfold pbFinally at h
  by_cases hsid : sid = "" <;> simp [hsid] at h
  · exact h
  · rcases hkey : get_devin_api_key e with msg | key <;> rw [hkey] at h
    · simp at h
    · exact h

theorem pbFinally_tail (e : Env) (sem : Bool) (sid : String)
    (body : Except String SessionResult × List PBEffect)
    (hk : sid ≠ "" → e.devin_api_key ≠ none) :
    ∃ mid, (pbFinally e sem sid body).2 = body.2 ++ mid ∧
      PBEffect.acquire ∉ mid ∧
      mid.count PBEffect.release = (if sem then 1 else 0) ∧
      (sem = true → PBEffect.release ∈ mid) ∧
      (∀ x ∈ mid, x = PBEffect.sleepMessage sid ∨ x = PBEffect.release) := by
  by_cases hsid : sid = ""
  · refine ⟨if sem then [PBEffect.release] else [], ?_, ?_, ?_, ?_, ?_⟩ <;>
      cases sem <;> simp [pbFinally, hsid]
  · rcases hkd : e.devin_api_key with _ | key
    · exact absurd hkd (hk hsid)
    · refine ⟨PBEffect.sleepMessage sid ::
        (if sem then [PBEffect.release] else []), ?_, ?_, ?_, ?_, ?_⟩ <;>
        cases sem <;> simp [pbFinally, hsid, get_devin_api_key, hkd]

theorem release_after_unique_acquire (tail : List PBEffect) :
    ∀ pre, PBEffect.acquire ∉ pre → PBEffect.acquire ∉ tail →
      PBEffect.release ∈ tail →
      ∀ l1 l2, pre ++ PBEffect.acquire :: tail = l1 ++ PBEffect.acquire :: l2 →
        PBEffect.release ∈ l2 := by
  intro pre
  induction pre with
  | nil =>
    intro _ htail hrel l1 l2 heq
    cases l1 with
    | nil =>
      simp at heq
      rw [← heq]
      exact hrel
    | cons x l1r =>
      simp at heq
      obtain ⟨hx, heq2⟩ := heq
      rw [heq2] at htail
      exact absurd (List.mem_append_right l1r (List.mem_cons_self _ _)) htail
  | cons p prer ih =>
    intro hpre htail hrel l1 l2 heq
    cases l1 with
    | nil =>
      simp at heq hpre
      obtain ⟨h1, -⟩ := heq
      obtain ⟨h2, -⟩ := hpre
      exact absurd h1 (fun hc => h2 hc.symm)
    | cons x l1r =>
      simp at heq hpre
      exact ih hpre.2 htail hrel l1r l2 heq.2

theorem pb_effects_shape (ns0 : List Int) (tb mid : List PBEffect)
    (sem : Bool)
    (htb_acq : PBEffect.acquire ∉ tb) (htb_rel : PBEffect.release ∉ tb)
    (hmid_acq : PBEffect.acquire ∉ mid)
    (hcnt : mid.count PBEffect.release = (if sem then 1 else 0))
    (hrel : sem = true → PBEffect.release ∈ mid) :
    (((PBEffect.claimCall ns0 ::
        (if sem then [PBEffect.acquire] else [])) ++ (tb ++ mid)).count
        PBEffect.acquire ≤ 1) ∧
    (PBEffect.acquire ∈ ((PBEffect.claimCall ns0 ::
        (if sem then [PBEffect.acquire] else [])) ++ (tb ++ mid)) →
      ((PBEffect.claimCall ns0 ::
        (if sem then [PBEffect.acquire] else [])) ++ (tb ++ mid)).count
        PBEffect.release = 1) ∧
    (PBEffect.acquire ∉ ((PBEffect.claimCall ns0 ::
        (if sem then [PBEffect.acquire] else [])) ++ (tb ++ mid)) →
      PBEffect.release ∉ ((PBEffect.claimCall ns0 ::
        (if sem then [PBEffect.acquire] else [])) ++ (tb ++ mid))) ∧
    (∀ l1 l2, ((PBEffect.claimCall ns0 ::
        (if sem then [PBEffect.acquire] else [])) ++ (tb ++ mid)) =
        l1 ++ PBEffect.acquire :: l2 → PBEffect.release ∈ l2) := by
  have htbc : tb.count PBEffect.acquire = 0 := List.count_eq_zero.mpr htb_acq
  have htbr : tb.count PBEffect.release = 0 := List.count_eq_zero.mpr htb_rel
  have hmidc : mid.count PBEffect.acquire = 0 :=
    List.count_eq_zero.mpr hmid_acq
  cases sem
  · simp only [Bool.false_eq_true, if_false, List.cons_append,
      List.nil_append] at hcnt ⊢
    refine ⟨?_, ?_, ?_, ?_⟩
    · simp [List.count_cons, List.count_append, htbc, hmidc]
    · intro h
      simp at h
      rcases h with h | h
      · exact absurd h htb_acq
      · exact absurd h hmid_acq
    · intro _ hr
      simp at hr
      rcases hr with h | h
      · exact htb_rel h
      · exact absurd h (List.count_eq_zero.mp hcnt)
    · intro l1 l2 h
      have hacqmem : PBEffect.acquire ∈
          PBEffect.claimCall ns0 :: (tb ++ mid) := by
        rw [h]; simp
      simp at hacqmem
      rcases hacqmem with h2 | h2
      · exact absurd h2 htb_acq
      · exact absurd h2 hmid_acq
  · simp only [if_pos rfl, List.cons_append, List.singleton_append] at hcnt ⊢
    refine ⟨?_, ?_, ?_, ?_⟩
    · simp [List.count_cons, List.count_append, htbc, hmidc]
    · intro _
      simp [List.count_cons, List.count_append, htbr]
      exact hcnt
    · intro h
      exact absurd (by simp : PBEffect.acquire ∈
        PBEffect.claimCall ns0 :: PBEffect.acquire :: (tb ++ mid)) h
    · intro l1 l2 h
      refine release_after_unique_acquire (tb ++ mid)
        [PBEffect.claimCall ns0] (by simp) ?_ ?_ l1 l2 (by simpa using h)
      · intro hx
        rcases List.mem_append.mp hx with hx | hx
        · exact htb_acq hx
        · exact hmid_acq hx
      · exact List.mem_append_right _ (hrel rfl)

/-! ### Claim theorems -/

/-- C10: every operation on `OrchestratorState` preserves the invariant that
`session_to_alerts` and `session_to_batch` have exactly the same session-id
keys, and the results list is append-only: `register_session` inserts the same
key into both maps, `add_result` only appends, and no operation removes a
registered session or a recorded result. -/
theorem orchestrator_state_invariants (st : OrchestratorState)
    (sid bid : String) (ns : List Int) (r : SessionResult) :
    (assocKeys st.session_to_alerts = assocKeys st.session_to_batch →
      assocKeys (register_session st sid bid ns).session_to_alerts =
        assocKeys (register_session st sid bid ns).session_to_batch) ∧
    sid ∈ assocKeys (register_session st sid bid ns).session_to_alerts ∧
    sid ∈ assocKeys (register_session st sid bid ns).session_to_batch ∧
    (∀ k, k ∈ assocKeys st.session_to_alerts →
      k ∈ assocKeys (register_session st sid bid ns).session_to_alerts) ∧
    (∀ k, k ∈ assocKeys st.session_to_batch →
      k ∈ assocKeys (register_session st sid bid ns).session_to_batch) ∧
    (register_session st sid bid ns).results = st.results ∧
    (add_result st r).results = st.results ++ [r] ∧
    (add_result st r).session_to_alerts = st.session_to_alerts ∧
    (add_result st r).session_to_batch = st.session_to_batch ∧
    (assocKeys st.session_to_alerts = assocKeys st.session_to_batch →
      assocKeys (add_result st r).session_to_alerts =
        assocKeys (add_result st r).session_to_batch) ∧
    (∀ x, x ∈ st.results → x ∈ (add_result st r).results) := by
  refine ⟨?_, ?_, ?_, ?_, ?_, rfl, rfl, rfl, rfl, fun h => h, ?_⟩
  · intro h
    simp only [register_session, assocKeys_assocSet, h]
  · exact self_mem_assocKeys_assocSet sid ns st.session_to_alerts
  · exact self_mem_assocKeys_assocSet sid bid st.session_to_batch
  · exact fun k hk => mem_assocKeys_assocSet sid k ns st.session_to_alerts hk
  · exact fun k hk => mem_assocKeys_assocSet sid k bid st.session_to_batch hk
  · intro x hx
    simp [add_result, hx]

/-- Witness for C10 at a concrete state. -/
theorem orchestrator_state_invariants_witness :
    assocKeys (OrchestratorState.session_to_alerts
        (register_session { } "s1" "b1" [1, 2])) =
      assocKeys (OrchestratorState.session_to_batch
        (register_session { } "s1" "b1" [1, 2])) ∧
    (add_result { }
        { status := .SUCCESS, session_id := "s1", batch_id := "b1",
          alert_numbers := [1] }).results.length = 1 := by
  constructor
  · exact (orchestrator_state_invariants { } "s1" "b1" [1, 2]
      { status := .SUCCESS, session_id := "s1", batch_id := "b1",
        alert_numbers := [1] }).1 (by decide)
  · rw [(orchestrator_state_invariants { } "s1" "b1" [1, 2]
      { status := .SUCCESS, session_id := "s1", batch_id := "b1",
        alert_numbers := [1] }).2.2.2.2.2.2.1]
    decide

/-- C1: on every polling iteration that successfully fetched session data the
termination conditions are evaluated in the fixed order
timeout → stagnation → PR URL → completion keyword → failure keyword →
blocked → sleep-and-repeat.  In particular an elapsed time beyond the timeout
always yields TIMEOUT (never STUCK), and absent timeout and stagnation a
truthy PR URL yields SUCCESS regardless of the status string (so also when it
is a failure keyword or `blocked`). -/
theorem poll_step_termination_order (timeout stag : ℚ) (sid : String)
    (surl : Option String) (st : PollState) (t : PollTimes) (d : SessionData) :
    (t.tNow - st.start_time > timeout →
      pollStep timeout stag sid surl st t (some d) = .terminal
        { status := .TIMEOUT, session_id := sid, batch_id := "",
          alert_numbers := [], session_url := surl,
          error_message :=
            some ("Session timed out after " ++ toString timeout ++
              " seconds") }) ∧
    (¬ t.tNow - st.start_time > timeout →
      t.tStag - (activityUpdate st t d).last_activity_time > stag →
      pollStep timeout stag sid surl st t (some d) = .terminal
        { status := .STUCK, session_id := sid, batch_id := "",
          alert_numbers := [], session_url := surl,
          error_message :=
            some ("Session stagnated for " ++
              toString (t.tStag - (activityUpdate st t d).last_activity_time)
              ++ " seconds") }) ∧
    (¬ t.tNow - st.start_time > timeout →
      ¬ t.tStag - (activityUpdate st t d).last_activity_time > stag →
      pyTruthy d.pr_url = true →
      pollStep timeout stag sid surl st t (some d) = .terminal
        { status := .SUCCESS, session_id := sid, batch_id := "",
          alert_numbers := [], pr_url := d.pr_url, session_url := surl }) ∧
    (¬ t.tNow - st.start_time > timeout →
      ¬ t.tStag - (activityUpdate st t d).last_activity_time > stag →
      pyTruthy d.pr_url = false →
      (d.status = "finished" ∨ d.status = "completed" ∨
        d.status = "success") →
      pollStep timeout stag sid surl st t (some d) = .terminal
        { status := .SUCCESS, session_id := sid, batch_id := "",
          alert_numbers := [], pr_url := d.pr_url, session_url := surl }) ∧
    (¬ t.tNow - st.start_time > timeout →
      ¬ t.tStag - (activityUpdate st t d).last_activity_time > stag →
      pyTruthy d.pr_url = false →
      ¬ (d.status = "finished" ∨ d.status = "completed" ∨
        d.status = "success") →
      (d.status = "failed" ∨ d.status = "error" ∨ d.status = "cancelled") →
      pollStep timeout stag sid surl st t (some d) = .terminal
        { status := .FAILURE, session_id := sid, batch_id := "",
          alert_numbers := [], session_url := surl,
          error_message :=
            some (if d.status_message ≠ "" then d.status_message
              else "Session ended with status: " ++ d.status) }) ∧
    (¬ t.tNow - st.start_time > timeout →
      ¬ t.tStag - (activityUpdate st t d).last_activity_time > stag →
      pyTruthy d.pr_url = false →
      ¬ (d.status = "finished" ∨ d.status = "completed" ∨
        d.status = "success") →
      ¬ (d.status = "failed" ∨ d.status = "error" ∨ d.status = "cancelled") →
      d.status = "blocked" →
      pollStep timeout stag sid surl st t (some d) = .terminal
        { status := .FAILURE, session_id := sid, batch_id := "",
          alert_numbers := [], session_url := surl,
          error_message :=
            some "Session is blocked and requires manual intervention" }) ∧
    (¬ t.tNow - st.start_time > timeout →
      ¬ t.tStag - (activityUpdate st t d).last_activity_time > stag →
      pyTruthy d.pr_url = false →
      ¬ (d.status = "finished" ∨ d.status = "completed" ∨
        d.status = "success") →
      ¬ (d.status = "failed" ∨ d.status = "error" ∨ d.status = "cancelled") →
      d.status ≠ "blocked" →
      pollStep timeout stag sid surl st t (some d) =
        .again (activityUpdate st t d)) := by
  refine ⟨fun h1 => ?_, fun h1 h2 => ?_, fun h1 h2 h3 => ?_,
    fun h1 h2 h3 h4 => ?_, fun h1 h2 h3 h4 h5 => ?_,
    fun h1 h2 h3 h4 h5 h6 => ?_, fun h1 h2 h3 h4 h5 h6 => ?_⟩
  · simp only [pollStep, if_pos h1]
  all_goals simp only [pollStep, if_neg h1]
  · simp only [if_pos h2]
  all_goals simp only [if_neg h2]
  · simp [h3]
  all_goals simp only [h3, Bool.false_eq_true, if_false]
  · simp [h4]
  all_goals simp only [if_neg h4]
  · simp [h5]
  all_goals simp only [if_neg h5]
  · simp [h6]
  · simp [if_neg h6]

/-- Witness for C1: a concrete timed-out iteration returns TIMEOUT, and a
concrete iteration carrying a PR URL together with the failure-keyword status
`failed` returns SUCCESS. -/
theorem poll_step_termination_order_witness :
    pollStep 50 300 "s" none (initialPollState 0) ⟨100, 100, 100⟩
        (some { status := "working", status_message := "",
                structured_output := none, pr_url := none }) = .terminal
      { status := .TIMEOUT, session_id := "s", batch_id := "",
        alert_numbers := [], session_url := none,
        error_message := some "Session timed out after 50 seconds" } ∧
    pollStep 1000 300 "s" none (initialPollState 0) ⟨100, 100, 100⟩
        (some { status := "failed", status_message := "",
                structured_output := none, pr_url := some "u" }) = .terminal
      { status := .SUCCESS, session_id := "s", batch_id := "",
        alert_numbers := [], pr_url := some "u", session_url := none } := by
  constructor
  · have h := (poll_step_termination_order 50 300 "s" none
      (initialPollState 0) ⟨100, 100, 100⟩
      { status := "working", status_message := "",
        structured_output := none, pr_url := none }).1
      (by norm_num [initialPollState])
    simpa using h
  · have h := (poll_step_termination_order 1000 300 "s" none
      (initialPollState 0) ⟨100, 100, 100⟩
      { status := "failed", status_message := "",
        structured_output := none, pr_url := some "u" }).2.2.1
      (by norm_num [initialPollState])
      (by norm_num [initialPollState, activityUpdate]) (by decide)
    simpa using h

/-- C2 counterexample: for a PARTIAL result whose assigned alerts are all
already in `fixed_alerts`, the remainder is empty, yet `handle_session_outcome`
leaves the pre-existing `unfixed_alerts` untouched instead of setting it to the
(empty) remainder — the assignment is guarded by `if unfixed:`. -/
theorem handle_outcome_partial_counterexample :
    ¬ ((handle_session_outcome (fun _ => true) (fun _ => true)
        { status := .PARTIAL, session_id := "s", batch_id := "b",
          alert_numbers := [1], fixed_alerts := [1],
          unfixed_alerts := [2] }).1.unfixed_alerts =
      List.filter (fun n => !([1].contains n)) [1]) ∧
    (handle_session_outcome (fun _ => true) (fun _ => true)
        { status := .PARTIAL, session_id := "s", batch_id := "b",
          alert_numbers := [1], fixed_alerts := [1],
          unfixed_alerts := [2] }).1.unfixed_alerts = [2] ∧
    List.filter (fun n => !([1].contains n)) [1] = ([] : List Int) := by
  decide

/-- C2 (amended): the claim-state transitions of `handle_session_outcome` for
results with assigned alerts — SUCCESS closes all assigned alerts and
partitions them into `fixed_alerts`/`unfixed_alerts` by close success;
FAILURE, STUCK and TIMEOUT unclaim all assigned alerts and set
`unfixed_alerts` to all of them; PARTIAL closes the `fixed_alerts` subset
(when non-empty), unclaims the remainder (when non-empty), and sets
`unfixed_alerts` to the remainder only when that remainder is non-empty,
leaving it unchanged otherwise. -/
theorem handle_outcome_transitions (closeOk unclaimOk : Int → Bool)
    (r : SessionResult) (hne : r.alert_numbers ≠ []) :
    (r.status = .SUCCESS → r.alert_numbers.Nodup →
      (handle_session_outcome closeOk unclaimOk r).1.fixed_alerts =
        r.alert_numbers.filter closeOk ∧
      (handle_session_outcome closeOk unclaimOk r).1.unfixed_alerts =
        r.alert_numbers.filter (fun n => !closeOk n) ∧
      (handle_session_outcome closeOk unclaimOk r).2 =
        [ClaimCall.close r.alert_numbers]) ∧
    (r.status = .FAILURE →
      (handle_session_outcome closeOk unclaimOk r).1.unfixed_alerts =
        r.alert_numbers ∧
      (handle_session_outcome closeOk unclaimOk r).1.fixed_alerts =
        r.fixed_alerts ∧
      (handle_session_outcome closeOk unclaimOk r).2 =
        [ClaimCall.unclaim r.alert_numbers]) ∧
    (r.status = .PARTIAL →
      (handle_session_outcome closeOk unclaimOk r).2 =
        (if r.fixed_alerts ≠ [] then [ClaimCall.close r.fixed_alerts]
          else []) ++
        (if r.alert_numbers.filter (fun n => !(r.fixed_alerts.contains n)) ≠ []
          then [ClaimCall.unclaim
            (r.alert_numbers.filter (fun n => !(r.fixed_alerts.contains n)))]
          else []) ∧
      (handle_session_outcome closeOk unclaimOk r).1.unfixed_alerts =
        (if r.alert_numbers.filter (fun n => !(r.fixed_alerts.contains n)) ≠ []
          then r.alert_numbers.filter (fun n => !(r.fixed_alerts.contains n))
          else r.unfixed_alerts)) ∧
    ((r.status = .STUCK ∨ r.status = .TIMEOUT) →
      (handle_session_outcome closeOk unclaimOk r).1.unfixed_alerts =
        r.alert_numbers ∧
      (handle_session_outcome closeOk unclaimOk r).2 =
        [ClaimCall.unclaim r.alert_numbers]) := by
  refine ⟨fun hs hnd => ?_, fun hs => ?_, fun hs => ?_, fun hs => ?_⟩
  · have hd : close_github_alerts closeOk r.alert_numbers =
        r.alert_numbers.map (fun n => (n, closeOk n)) :=
      dictOf_nodup closeOk r.alert_numbers hnd
    refine ⟨?_, ?_, ?_⟩ <;>
      simp [handle_session_outcome, hne, hs, hd, filter_true_keys,
        filter_false_keys]
  · have h1 : r.status ≠ .SUCCESS := by rw [hs]; decide
    refine ⟨?_, ?_, ?_⟩ <;> simp [handle_session_outcome, hne, hs, h1]
  · have h1 : r.status ≠ .SUCCESS := by rw [hs]; decide
    have h2 : r.status ≠ .FAILURE := by rw [hs]; decide
    refine ⟨?_, ?_⟩
    · simp only [handle_session_outcome, if_neg hne, if_neg h1, if_neg h2,
        if_pos hs]
    · simp only [handle_session_outcome, if_neg hne, if_neg h1, if_neg h2,
        if_pos hs]
      split <;> simp_all
  · have h1 : r.status ≠ .SUCCESS := by rcases hs with h | h <;> rw [h] <;> decide
    have h2 : r.status ≠ .FAILURE := by rcases hs with h | h <;> rw [h] <;> decide
    have h3 : r.status ≠ .PARTIAL := by rcases hs with h | h <;> rw [h] <;> decide
    constructor <;>
      simp [handle_session_outcome, hne, h1, h2, h3, hs]

/-- Witness for C2 (amended) on a concrete SUCCESS result where closing alert
1 succeeds and closing alert 2 fails. -/
theorem handle_outcome_transitions_witness :
    (handle_session_outcome (fun n => n = 1) (fun _ => true)
        { status := .SUCCESS, session_id := "s", batch_id := "b",
          alert_numbers := [1, 2] }).1.fixed_alerts = [1] ∧
    (handle_session_outcome (fun n => n = 1) (fun _ => true)
        { status := .SUCCESS, session_id := "s", batch_id := "b",
          alert_numbers := [1, 2] }).1.unfixed_alerts = [2] := by
  have h := ((handle_outcome_transitions (fun n => decide (n = 1))
      (fun _ => true)
      { status := .SUCCESS, session_id := "s", batch_id := "b",
        alert_numbers := [1, 2] } (by decide)).1 rfl (by decide))
  exact ⟨by rw [h.1]; decide, by rw [h.2.1]; decide⟩

/-- C7 counterexample: a reconciled SUCCESS result keeps its non-empty
`alert_numbers`, so a second application of `handle_session_outcome` issues
the close call again — reconciliation is not idempotent in issued calls. -/
theorem reconcile_twice_counterexample :
    (handle_session_outcome (fun _ => true) (fun _ => true)
        { status := .SUCCESS, session_id := "s", batch_id := "b",
          alert_numbers := [1] }).1.unfixed_alerts = [] ∧
    (handle_session_outcome (fun _ => true) (fun _ => true)
        { status := .SUCCESS, session_id := "s", batch_id := "b",
          alert_numbers := [1] }).1.fixed_alerts = [1] ∧
    (handle_session_outcome (fun _ => true) (fun _ => true)
        (handle_session_outcome (fun _ => true) (fun _ => true)
          { status := .SUCCESS, session_id := "s", batch_id := "b",
            alert_numbers := [1] }).1).2 = [ClaimCall.close [1]] ∧
    (handle_session_outcome (fun _ => true) (fun _ => true)
        (handle_session_outcome (fun _ => true) (fun _ => true)
          { status := .SUCCESS, session_id := "s", batch_id := "b",
            alert_numbers := [1] }).1).2 ≠ [] := by
  decide

/-- C7 (amended): reconciliation is a no-op (no further claim-state calls)
exactly on results that carry no assigned findings; for a SUCCESS result with
assigned findings, a second application re-issues the close call for all of
them, because reconciliation leaves `alert_numbers` intact. -/
theorem reconcile_noop_when_no_alerts (closeOk unclaimOk : Int → Bool)
    (r : SessionResult) :
    (r.alert_numbers = [] →
      handle_session_outcome closeOk unclaimOk r = (r, [])) ∧
    (r.status = .SUCCESS → r.alert_numbers ≠ [] →
      (handle_session_outcome closeOk unclaimOk
        (handle_session_outcome closeOk unclaimOk r).1).2 =
        [ClaimCall.close r.alert_numbers]) := by
  constructor
  · intro h
    simp [handle_session_outcome, h]
  · intro hs hne
    have ha := handle_session_outcome_alert_numbers closeOk unclaimOk r
    have hst := handle_session_outcome_status closeOk unclaimOk r
    rw [handle_session_outcome, if_neg (by rw [ha]; exact hne),
      if_pos (by rw [hst]; exact hs), ha]

/-- Witness for C7 (amended). -/
theorem reconcile_noop_when_no_alerts_witness :
    handle_session_outcome (fun _ => true) (fun _ => true)
        { status := .SUCCESS, session_id := "s", batch_id := "b",
          alert_numbers := [] } =
      ({ status := .SUCCESS, session_id := "s", batch_id := "b",
         alert_numbers := [] }, []) ∧
    (handle_session_outcome (fun _ => true) (fun _ => true)
        (handle_session_outcome (fun _ => true) (fun _ => true)
          { status := .SUCCESS, session_id := "s", batch_id := "b",
            alert_numbers := [3] }).1).2 = [ClaimCall.close [3]] := by
  refine ⟨(reconcile_noop_when_no_alerts (fun _ => true) (fun _ => true)
      { status := .SUCCESS, session_id := "s", batch_id := "b",
        alert_numbers := [] }).1 rfl, ?_⟩
  exact (reconcile_noop_when_no_alerts (fun _ => true) (fun _ => true)
      { status := .SUCCESS, session_id := "s", batch_id := "b",
        alert_numbers := [3] }).2 rfl (by decide)

/-- C6: in both `claim_github_alerts` and `unclaim_github_alerts`, each alert
of the input list sees at most `max_retries` request attempts, no attempt is
made after the first successful one (every recorded attempt has only failed
attempts before it), failure is reported for an alert only after exactly
`max_retries` failed attempts, and consecutive attempts are separated by a
`retry_delay * 2 ^ attempt` backoff sleep. -/
theorem claim_retry_discipline (e : Env) (ar : Except String String)
    (cok uok : Int → Nat → Bool) (owner repo : String) (ns : List Int)
    (m : Nat) (d : ℚ) (n : Int) (cdict udict : List (Int × Bool))
    (cevs uevs : List AlertEvent) (k : Nat)
    (hclaim : claim_github_alerts e ar cok owner repo ns m d =
      (.ok cdict, cevs, k))
    (hunclaim : unclaim_github_alerts e uok owner repo ns m d =
      (.ok udict, uevs))
    (hnd : ns.Nodup) (hmem : n ∈ ns) :
    ((attemptEvents n cevs).length ≤ m ∧
      (∀ i, i ∈ attemptEvents n cevs → ∀ j, j < i → cok n j = false) ∧
      (assocFind n cdict = some false →
        (attemptEvents n cevs).length = m ∧ ∀ j, j < m → cok n j = false) ∧
      (∀ i, (i + 1) ∈ attemptEvents n cevs →
        ∃ pre post, cevs = pre ++ AlertEvent.attempt n i ::
          AlertEvent.sleep (d * 2 ^ i) :: AlertEvent.attempt n (i + 1) ::
            post)) ∧
    ((attemptEvents n uevs).length ≤ m ∧
      (∀ i, i ∈ attemptEvents n uevs → ∀ j, j < i → uok n j = false) ∧
      (assocFind n udict = some false →
        (attemptEvents n uevs).length = m ∧ ∀ j, j < m → uok n j = false) ∧
      (∀ i, (i + 1) ∈ attemptEvents n uevs →
        ∃ pre post, uevs = pre ++ AlertEvent.attempt n i ::
          AlertEvent.sleep (d * 2 ^ i) :: AlertEvent.attempt n (i + 1) ::
            post)) := by
  rcases htok : e.gh_token with _ | tok
  · simp [claim_github_alerts, get_github_token, htok] at hclaim
  rcases hbures : get_bot_username e ar with ⟨bres, bk⟩
  cases bres with
  | error msg =>
    unfold claim_github_alerts at hclaim
    rw [show get_github_token e = .ok tok from by
      simp [get_github_token, htok], hbures] at hclaim
    simp at hclaim
  | ok u =>
    rw [claim_github_alerts_ok e ar cok owner repo ns m d tok u htok
      (by rw [hbures])] at hclaim
    rw [unclaim_github_alerts_ok e uok owner repo ns m d tok htok] at hunclaim
    simp only [Prod.mk.injEq, Except.ok.injEq] at hclaim hunclaim
    obtain ⟨hcd, hce, _⟩ := hclaim
    obtain ⟨hud, hue⟩ := hunclaim
    subst hcd hce hud hue
    have hc := trace_discipline cok d m ns n hnd hmem
    have hu := trace_discipline uok d m ns n hnd hmem
    exact ⟨⟨hc.1, hc.2.1, hc.2.2.1, hc.2.2.2.2⟩,
      ⟨hu.1, hu.2.1, hu.2.2.1, hu.2.2.2.2⟩⟩

/-- Witness for C6: one alert, claim succeeding on the second attempt and
unclaim failing all three attempts. -/
theorem claim_retry_discipline_witness :
    (attemptEvents 7
      ((([7] : List Int).map
        (alertSegment (fun _ i => decide (i = 1)) 2 3)).flatten)).length ≤ 3 ∧
    (assocFind 7 (dictOf
        (fun x => (attemptLoop ((fun _ _ => false) x) 2 3 x).1) [7]) =
          some false →
      (attemptEvents 7
        ((([7] : List Int).map
          (alertSegment (fun _ _ => false) 2 3)).flatten)).length = 3 ∧
      ∀ j, j < 3 → (fun (_ : Int) (_ : Nat) => false) 7 j = false) := by
  have h := claim_retry_discipline
    { gh_token := some "t", devin_bot_username := some "bot",
      devin_api_key := some "k" } (.ok "me")
    (fun _ i => decide (i = 1)) (fun _ _ => false) "o" "r" [7] 3 2 7
    (dictOf (fun x =>
      (attemptLoop ((fun _ i => decide (i = 1)) x) 2 3 x).1) [7])
    (dictOf (fun x => (attemptLoop ((fun _ _ => false) x) 2 3 x).1) [7])
    ((([7] : List Int).map
      (alertSegment (fun _ i => decide (i = 1)) 2 3)).flatten)
    ((([7] : List Int).map (alertSegment (fun _ _ => false) 2 3)).flatten)
    0
    (claim_github_alerts_ok _ (.ok "me") _ "o" "r" [7] 3 2 "t" "bot" rfl rfl)
    (unclaim_github_alerts_ok _ _ "o" "r" [7] 3 2 "t" rfl)
    (by decide) (by decide)
  exact ⟨h.1.1, h.2.2.2.1⟩

/-- C9 counterexample: with two attempts for one alert (first failed, second
successful), the trace is attempt, backoff sleep 2s, attempt, fixed pause —
the event following the first attempt is the exponential backoff, and no
fixed 0.5s pause occurs between the two attempts, so the fixed pause does not
follow every per-alert request attempt; it follows only each alert's final
attempt. -/
theorem fixed_pause_per_attempt_counterexample :
    (claim_github_alerts
      { gh_token := some "t", devin_bot_username := some "bot",
        devin_api_key := some "k" } (.ok "me") (fun _ _ => false) "o" "r"
      [5] 2 2).2.1 =
      [AlertEvent.attempt 5 0, AlertEvent.sleep 2, AlertEvent.attempt 5 1,
        AlertEvent.sleep (1/2)] ∧
    fixedPauseFollowsEveryAttempt (1/2)
      [AlertEvent.attempt 5 0, AlertEvent.sleep 2, AlertEvent.attempt 5 1,
        AlertEvent.sleep (1/2)] = false := by
  constructor
  · rw [claim_github_alerts_ok
      { gh_token := some "t", devin_bot_username := some "bot",
        devin_api_key := some "k" } (.ok "me") (fun _ _ => false) "o" "r"
      [5] 2 2 "t" "bot" rfl rfl]
    simp [alertSegment, attemptLoop, attemptGo]
  · simp [fixedPauseFollowsEveryAttempt, pauseBeforeNextAttempt]
    norm_num

/-- C9 (amended): the fixed 0.5s rate-limit pause follows each alert's whole
retry loop, once per alert: in both `claim_github_alerts` and
`unclaim_github_alerts` the trace contains, for each alert of the list, a
segment ending in that alert's final request attempt followed immediately by
the 0.5s sleep; between consecutive retry attempts only the exponential
backoff sleep occurs (the between-attempts structure is the backoff shape
proved for C6). -/
theorem fixed_pause_per_alert (e : Env) (ar : Except String String)
    (cok uok : Int → Nat → Bool) (owner repo : String) (ns : List Int)
    (m : Nat) (d : ℚ) (n : Int) (cdict udict : List (Int × Bool))
    (cevs uevs : List AlertEvent) (k : Nat)
    (hclaim : claim_github_alerts e ar cok owner repo ns m d =
      (.ok cdict, cevs, k))
    (hunclaim : unclaim_github_alerts e uok owner repo ns m d =
      (.ok udict, uevs))
    (hmem : n ∈ ns) (hm : m ≠ 0) :
    (∃ pre mid j post, cevs =
      pre ++ (mid ++ [AlertEvent.attempt n j]) ++
        AlertEvent.sleep (1/2) :: post) ∧
    (∃ pre mid j post, uevs =
      pre ++ (mid ++ [AlertEvent.attempt n j]) ++
        AlertEvent.sleep (1/2) :: post) := by
  rcases htok : e.gh_token with _ | tok
  · simp [claim_github_alerts, get_github_token, htok] at hclaim
  rcases hbures : get_bot_username e ar with ⟨bres, bk⟩
  cases bres with
  | error msg =>
    unfold claim_github_alerts at hclaim
    rw [show get_github_token e = .ok tok from by
      simp [get_github_token, htok], hbures] at hclaim
    simp at hclaim
  | ok u =>
    rw [claim_github_alerts_ok e ar cok owner repo ns m d tok u htok
      (by rw [hbures])] at hclaim
    rw [unclaim_github_alerts_ok e uok owner repo ns m d tok htok] at hunclaim
    simp only [Prod.mk.injEq, Except.ok.injEq] at hclaim hunclaim
    obtain ⟨_, hce, _⟩ := hclaim
    obtain ⟨_, hue⟩ := hunclaim
    subst hce hue
    constructor
    · obtain ⟨pre0, post0, h0⟩ :=
        flatten_segment (alertSegment cok d m) ns n hmem
      obtain ⟨mid, j, hlast⟩ := attemptGo_last (cok n) d n m 0 hm
      refine ⟨pre0, mid, j, post0, ?_⟩
      rw [h0]
      simp only [alertSegment, attemptLoop]
      rw [hlast]
      simp
    · obtain ⟨pre0, post0, h0⟩ :=
        flatten_segment (alertSegment uok d m) ns n hmem
      obtain ⟨mid, j, hlast⟩ := attemptGo_last (uok n) d n m 0 hm
      refine ⟨pre0, mid, j, post0, ?_⟩
      rw [h0]
      simp only [alertSegment, attemptLoop]
      rw [hlast]
      simp

/-- Witness for C9 (amended) at a concrete one-alert input. -/
theorem fixed_pause_per_alert_witness :
    ∃ pre mid j post,
      (([5] : List Int).map
        (alertSegment (fun _ _ => false) 2 2)).flatten =
        pre ++ (mid ++ [AlertEvent.attempt 5 j]) ++
          AlertEvent.sleep (1/2) :: post := by
  exact (fixed_pause_per_alert
    { gh_token := some "t", devin_bot_username := some "bot",
      devin_api_key := some "k" } (.ok "me") (fun _ _ => false)
    (fun _ _ => false) "o" "r" [5] 2 2 5
    (dictOf (fun x => (attemptLoop ((fun _ _ => false) x) 2 2 x).1) [5])
    (dictOf (fun x => (attemptLoop ((fun _ _ => false) x) 2 2 x).1) [5])
    ((([5] : List Int).map (alertSegment (fun _ _ => false) 2 2)).flatten)
    ((([5] : List Int).map (alertSegment (fun _ _ => false) 2 2)).flatten)
    0
    (claim_github_alerts_ok
      { gh_token := some "t", devin_bot_username := some "bot",
        devin_api_key := some "k" } (.ok "me") (fun _ _ => false) "o" "r"
      [5] 2 2 "t" "bot" rfl rfl)
    (unclaim_github_alerts_ok
      { gh_token := some "t", devin_bot_username := some "bot",
        devin_api_key := some "k" } (fun _ _ => false) "o" "r" [5] 2 2 "t"
      rfl)
    (by decide) (by decide)).1

/-- C8 counterexample: with `DEVIN_BOT_USERNAME` unset, a process that runs
two claim operations performs two credential resolutions — the resolution is
not cached per process. -/
theorem bot_username_not_cached_counterexample :
    claimOpsResolutionTotal
      { gh_token := some "t", devin_bot_username := none,
        devin_api_key := some "k" } (.ok "me") (fun _ _ => true) "o" "r"
      [[1], [2]] = 2 ∧
    ¬ claimOpsResolutionTotal
      { gh_token := some "t", devin_bot_username := none,
        devin_api_key := some "k" } (.ok "me") (fun _ _ => true) "o" "r"
      [[1], [2]] ≤ 1 := by
  have h2 : claimOpsResolutionTotal
      { gh_token := some "t", devin_bot_username := none,
        devin_api_key := some "k" } (.ok "me") (fun _ _ => true) "o" "r"
      [[1], [2]] = 2 := by
    have hr1 := claim_github_alerts_ok
      { gh_token := some "t", devin_bot_username := none,
        devin_api_key := some "k" } (.ok "me") (fun _ _ => true) "o" "r"
      [1] 3 2 "t" "me" rfl rfl
    have hr2 := claim_github_alerts_ok
      { gh_token := some "t", devin_bot_username := none,
        devin_api_key := some "k" } (.ok "me") (fun _ _ => true) "o" "r"
      [2] 3 2 "t" "me" rfl rfl
    simp [claimOpsResolutionTotal, hr1, hr2, get_bot_username,
      get_authenticated_user, get_github_token]
  exact ⟨h2, by rw [h2]; omega⟩

/-- C8 (amended): with no configured bot identity, every claim operation
resolves the acting credential's identity itself (exactly one resolution call
per `claim_github_alerts` invocation — there is no per-process cache), and a
failed resolution propagates as a hard error before any claim attempt is
made, without being retried. -/
theorem bot_username_resolution_per_call (e : Env)
    (ar : Except String String) (ok : Int → Nat → Bool) (owner repo : String)
    (ns : List Int) (m : Nat) (d : ℚ) (tok : String)
    (hbot : e.devin_bot_username = none) (htok : e.gh_token = some tok) :
    (claim_github_alerts e ar ok owner repo ns m d).2.2 = 1 ∧
    (∀ msg, ar = .error msg →
      (claim_github_alerts e ar ok owner repo ns m d).1 = .error msg ∧
      (claim_github_alerts e ar ok owner repo ns m d).2.1 = []) := by
  have hgt : get_github_token e = .ok tok := by simp [get_github_token, htok]
  have hbu : get_bot_username e ar = (ar, 1) := by
    simp [get_bot_username, hbot, get_authenticated_user, hgt]
  constructor
  · unfold claim_github_alerts
    rw [hgt, hbu]
    cases ar <;> simp
  · intro msg hmsg
    subst hmsg
    unfold claim_github_alerts
    rw [hgt, hbu]
    simp

/-- Witness for C8 (amended): a failed resolution aborts the claim operation
with the resolution error, no attempts made, one resolution performed. -/
theorem bot_username_resolution_per_call_witness :
    (claim_github_alerts
      { gh_token := some "t", devin_bot_username := none,
        devin_api_key := some "k" } (.error "boom") (fun _ _ => true) "o" "r"
      [1] 3 2).2.2 = 1 ∧
    (claim_github_alerts
      { gh_token := some "t", devin_bot_username := none,
        devin_api_key := some "k" } (.error "boom") (fun _ _ => true) "o" "r"
      [1] 3 2).1 = .error "boom" ∧
    (claim_github_alerts
      { gh_token := some "t", devin_bot_username := none,
        devin_api_key := some "k" } (.error "boom") (fun _ _ => true) "o" "r"
      [1] 3 2).2.1 = [] := by
  have h := bot_username_resolution_per_call
    { gh_token := some "t", devin_bot_username := none,
      devin_api_key := some "k" } (.error "boom") (fun _ _ => true) "o" "r"
    [1] 3 2 "t" rfl rfl
  exact ⟨h.1, (h.2 "boom" rfl).1, (h.2 "boom" rfl).2⟩

/-- C5: the session-slot semaphore unit is acquired at most once per
`process_batch` execution; whenever it is acquired, it is released exactly
once — on normal completion, on session-creation failure, and on any
exception injected after the acquisition — and the release occurs after the
acquisition; no execution that never acquires ever releases. -/
theorem process_batch_slot_release (e : Env) (o : PBOracles)
    (owner repo : String) (sem : Bool) (bid : String) (bd : BatchData) :
    ((process_batch e o owner repo sem bid bd).2.count PBEffect.acquire ≤ 1) ∧
    (PBEffect.acquire ∈ (process_batch e o owner repo sem bid bd).2 →
      (process_batch e o owner repo sem bid bd).2.count PBEffect.release =
        1) ∧
    (PBEffect.acquire ∉ (process_batch e o owner repo sem bid bd).2 →
      PBEffect.release ∉ (process_batch e o owner repo sem bid bd).2) ∧
    (∀ l1 l2, (process_batch e o owner repo sem bid bd).2 =
      l1 ++ PBEffect.acquire :: l2 → PBEffect.release ∈ l2) := by
  by_cases hns : extract_alert_numbers bd = []
  · have heff : (process_batch e o owner repo sem bid bd).2 = [] := by
      simp only [process_batch, hns]
      simp
    rw [heff]
    refine ⟨by simp, by simp, by simp, ?_⟩
    intro l1 l2 h
    have : PBEffect.acquire ∈ ([] : List PBEffect) := by
      rw [h]; simp
    simp at this
  rcases hcl : claim_github_alerts e o.authResp o.claimOk owner repo
    (extract_alert_numbers bd) 3 2 with ⟨cres, cevs, ck⟩
  cases cres with
  | error msg =>
    have heff : (process_batch e o owner repo sem bid bd).2 =
        [PBEffect.claimCall (extract_alert_numbers bd)] := by
      simp only [process_batch, if_neg hns, hcl]
    rw [heff]
    refine ⟨by simp, by simp, by simp, ?_⟩
    intro l1 l2 h
    have : PBEffect.acquire ∈
        [PBEffect.claimCall (extract_alert_numbers bd)] := by
      rw [h]; simp
    simp at this
  | ok cdict =>
    by_cases hclm : ((cdict.filter (fun p => p.2)).map (fun p => p.1)) = []
    · have heff : (process_batch e o owner repo sem bid bd).2 =
          [PBEffect.claimCall (extract_alert_numbers bd)] := by
        simp only [process_batch, if_neg hns, hcl, hclm]
        simp
      rw [heff]
      refine ⟨by simp, by simp, by simp, ?_⟩
      intro l1 l2 h
      have : PBEffect.acquire ∈
          [PBEffect.claimCall (extract_alert_numbers bd)] := by
        rw [h]; simp
      simp at this
    · have hk2 : ∀ ns2 : List Int, (pbTryBody e o bid ns2).2.2 ≠ "" →
          e.devin_api_key ≠ none := by
        intro ns2 hs hkd
        exact hs (pbTryBody_sid_empty e o bid ns2 hkd)
      obtain ⟨mid, hmid, hacq_mid, hcnt, hrel, hmid_char⟩ := pbFinally_tail e
        sem
        (pbTryBody e o bid
          (if ((cdict.filter (fun p => !p.2)).map (fun p => p.1)) ≠ []
            then ((cdict.filter (fun p => p.2)).map (fun p => p.1))
            else extract_alert_numbers bd)).2.2
        ((pbTryBody e o bid
          (if ((cdict.filter (fun p => !p.2)).map (fun p => p.1)) ≠ []
            then ((cdict.filter (fun p => p.2)).map (fun p => p.1))
            else extract_alert_numbers bd)).1,
         (pbTryBody e o bid
          (if ((cdict.filter (fun p => !p.2)).map (fun p => p.1)) ≠ []
            then ((cdict.filter (fun p => p.2)).map (fun p => p.1))
            else extract_alert_numbers bd)).2.1)
        (hk2 _)
      have htb := pbTryBody_effects e o bid
        (if ((cdict.filter (fun p => !p.2)).map (fun p => p.1)) ≠ []
          then ((cdict.filter (fun p => p.2)).map (fun p => p.1))
          else extract_alert_numbers bd)
      have hacq_tb : PBEffect.acquire ∉ (pbTryBody e o bid
          (if ((cdict.filter (fun p => !p.2)).map (fun p => p.1)) ≠ []
            then ((cdict.filter (fun p => p.2)).map (fun p => p.1))
            else extract_alert_numbers bd)).2.1 :=
        fun h => (htb _ h).1 rfl
      have hrel_tb : PBEffect.release ∉ (pbTryBody e o bid
          (if ((cdict.filter (fun p => !p.2)).map (fun p => p.1)) ≠ []
            then ((cdict.filter (fun p => p.2)).map (fun p => p.1))
            else extract_alert_numbers bd)).2.1 :=
        fun h => (htb _ h).2.1 rfl
      have heff : (process_batch e o owner repo sem bid bd).2 =
          PBEffect.claimCall (extract_alert_numbers bd) ::
            (if sem then [PBEffect.acquire] else []) ++
            ((pbTryBody e o bid
              (if ((cdict.filter (fun p => !p.2)).map (fun p => p.1)) ≠ []
                then ((cdict.filter (fun p => p.2)).map (fun p => p.1))
                else extract_alert_numbers bd)).2.1 ++ mid) := by
        simp only [process_batch, if_neg hns, hcl, if_neg hclm]
        rw [← hmid]
      rw [heff]
      exact pb_effects_shape (extract_alert_numbers bd) _ mid sem hacq_tb
        hrel_tb hacq_mid hcnt hrel

/-- Witness for C5: a run with a semaphore whose session creation fails still
releases the slot exactly once, after the acquisition. -/
theorem process_batch_slot_release_witness :
    PBEffect.acquire ∈ (process_batch
      { gh_token := some "t", devin_bot_username := some "bot",
        devin_api_key := some "k" }
      { claimOk := fun _ _ => true, authResp := .ok "me",
        createResp := .ok none,
        pollOutcome := .ok { status := .SUCCESS, session_id := "", batch_id := "", alert_numbers := [] },
        closeOk := fun _ => true, unclaimOk := fun _ => true,
        reconcileExc := none } "o" "r" true "b"
      { severity := 5, tasks := [{ alert_number := some 1 }] }).2 ∧
    (process_batch
      { gh_token := some "t", devin_bot_username := some "bot",
        devin_api_key := some "k" }
      { claimOk := fun _ _ => true, authResp := .ok "me",
        createResp := .ok none,
        pollOutcome := .ok { status := .SUCCESS, session_id := "", batch_id := "", alert_numbers := [] },
        closeOk := fun _ => true, unclaimOk := fun _ => true,
        reconcileExc := none } "o" "r" true "b"
      { severity := 5, tasks := [{ alert_number := some 1 }] }).2.count
      PBEffect.release = 1 := by
  have hmem : PBEffect.acquire ∈ (process_batch
      { gh_token := some "t", devin_bot_username := some "bot",
        devin_api_key := some "k" }
      { claimOk := fun _ _ => true, authResp := .ok "me",
        createResp := .ok none,
        pollOutcome := .ok { status := .SUCCESS, session_id := "", batch_id := "", alert_numbers := [] },
        closeOk := fun _ => true, unclaimOk := fun _ => true,
        reconcileExc := none } "o" "r" true "b"
      { severity := 5, tasks := [{ alert_number := some 1 }] }).2 := by
    decide
  exact ⟨hmem, (process_batch_slot_release
    { gh_token := some "t", devin_bot_username := some "bot",
      devin_api_key := some "k" }
    { claimOk := fun _ _ => true, authResp := .ok "me",
      createResp := .ok none,
      pollOutcome := .ok { status := .SUCCESS, session_id := "", batch_id := "", alert_numbers := [] },
      closeOk := fun _ => true, unclaimOk := fun _ => true,
      reconcileExc := none } "o" "r" true "b"
    { severity := 5, tasks := [{ alert_number := some 1 }] }).2.1 hmem⟩

/-- C3: when the claim step succeeds for zero of the batch's alerts,
`process_batch` returns a FAILURE result carrying the batch's alert numbers
and an error message beginning `Failed to claim alerts`, and no
session-creation call is made; when it succeeds for a non-empty proper subset,
the pipeline continues with exactly the claimed subset — every session
registration uses the claimed subset and every returned result carries it as
its alert list. -/
theorem process_batch_claim_gate (e : Env) (o : PBOracles)
    (owner repo : String) (sem : Bool) (bid : String) (bd : BatchData)
    (cdict : List (Int × Bool)) (cevs : List AlertEvent) (ck : Nat)
    (hne : extract_alert_numbers bd ≠ [])
    (hclaim : claim_github_alerts e o.authResp o.claimOk owner repo
      (extract_alert_numbers bd) 3 2 = (.ok cdict, cevs, ck)) :
    (((cdict.filter (fun p => p.2)).map (fun p => p.1)) = [] →
      (process_batch e o owner repo sem bid bd).1 = .ok
        { status := .FAILURE, session_id := "", batch_id := bid,
          alert_numbers := extract_alert_numbers bd,
          error_message := some ("Failed to claim alerts: " ++
            toString ((cdict.filter (fun p => !p.2)).map (fun p => p.1))) } ∧
      PBEffect.createCall ∉ (process_batch e o owner repo sem bid bd).2) ∧
    (((cdict.filter (fun p => p.2)).map (fun p => p.1)) ≠ [] →
      ((cdict.filter (fun p => !p.2)).map (fun p => p.1)) ≠ [] →
      (∀ sid2 bid2 ms, PBEffect.register sid2 bid2 ms ∈
          (process_batch e o owner repo sem bid bd).2 →
        ms = ((cdict.filter (fun p => p.2)).map (fun p => p.1))) ∧
      (∀ r, (process_batch e o owner repo sem bid bd).1 = .ok r →
        r.alert_numbers =
          ((cdict.filter (fun p => p.2)).map (fun p => p.1)))) := by
  constructor
  · intro hclm
    constructor
    · simp only [process_batch, if_neg hne, hclaim, if_pos hclm]
    · simp only [process_batch, if_neg hne, hclaim, if_pos hclm]
      simp
  · intro hclm hfail
    have heff1 : process_batch e o owner repo sem bid bd =
        ((pbFinally e sem
          (pbTryBody e o bid
            ((cdict.filter (fun p => p.2)).map (fun p => p.1))).2.2
          ((pbTryBody e o bid
            ((cdict.filter (fun p => p.2)).map (fun p => p.1))).1,
           (pbTryBody e o bid
            ((cdict.filter (fun p => p.2)).map (fun p => p.1))).2.1)).1,
         (PBEffect.claimCall (extract_alert_numbers bd) ::
            (if sem then [PBEffect.acquire] else [])) ++
          (pbFinally e sem
            (pbTryBody e o bid
              ((cdict.filter (fun p => p.2)).map (fun p => p.1))).2.2
            ((pbTryBody e o bid
              ((cdict.filter (fun p => p.2)).map (fun p => p.1))).1,
             (pbTryBody e o bid
              ((cdict.filter (fun p => p.2)).map (fun p => p.1))).2.1)).2) :=
      by simp only [process_batch, if_neg hne, hclaim, if_neg hclm,
        if_pos hfail]
    have hk2 : (pbTryBody e o bid
        ((cdict.filter (fun p => p.2)).map (fun p => p.1))).2.2 ≠ "" →
        e.devin_api_key ≠ none := by
      intro hs hkd
      exact hs (pbTryBody_sid_empty e o bid _ hkd)
    obtain ⟨mid, hmid, _, _, _, hchar⟩ := pbFinally_tail e sem
      (pbTryBody e o bid
        ((cdict.filter (fun p => p.2)).map (fun p => p.1))).2.2
      ((pbTryBody e o bid
        ((cdict.filter (fun p => p.2)).map (fun p => p.1))).1,
       (pbTryBody e o bid
        ((cdict.filter (fun p => p.2)).map (fun p => p.1))).2.1) hk2
    constructor
    · intro sid2 bid2 ms hmem
      rw [heff1] at hmem
      simp only at hmem
      rw [hmid] at hmem
      rcases List.mem_append.mp hmem with h | h
      · cases sem <;> simp at h
      · rcases List.mem_append.mp h with h2 | h2
        · exact ((pbTryBody_effects e o bid _) _ h2).2.2 sid2 bid2 ms rfl
        · rcases hchar _ h2 with h3 | h3 <;> simp at h3
    · intro r hr
      rw [heff1] at hr
      exact pbTryBody_ok_alert_numbers e o bid _ r
        (pbFinally_ok e sem _ _ r hr)

/-- Witness for C3, zero-claims case: with every claim attempt failing, the
batch aborts with the claim-failure result and no session-creation call. -/
theorem process_batch_claim_gate_witness :
    (process_batch
      { gh_token := some "t", devin_bot_username := some "bot",
        devin_api_key := some "k" }
      { claimOk := fun _ _ => false, authResp := .ok "me",
        createResp := .ok none,
        pollOutcome := .ok { status := .SUCCESS, session_id := "", batch_id := "", alert_numbers := [] },
        closeOk := fun _ => true, unclaimOk := fun _ => true,
        reconcileExc := none } "o" "r" true "b"
      { severity := 5, tasks := [{ alert_number := some 1 }] }).1 = .ok
        { status := .FAILURE, session_id := "", batch_id := "b",
          alert_numbers := [1],
          error_message := some ("Failed to claim alerts: " ++
            toString [(1 : Int)]) } ∧
    PBEffect.createCall ∉ (process_batch
      { gh_token := some "t", devin_bot_username := some "bot",
        devin_api_key := some "k" }
      { claimOk := fun _ _ => false, authResp := .ok "me",
        createResp := .ok none,
        pollOutcome := .ok { status := .SUCCESS, session_id := "", batch_id := "", alert_numbers := [] },
        closeOk := fun _ => true, unclaimOk := fun _ => true,
        reconcileExc := none } "o" "r" true "b"
      { severity := 5, tasks := [{ alert_number := some 1 }] }).2 := by
  have h := (process_batch_claim_gate
    { gh_token := some "t", devin_bot_username := some "bot",
      devin_api_key := some "k" }
    { claimOk := fun _ _ => false, authResp := .ok "me",
      createResp := .ok none,
      pollOutcome := .ok { status := .SUCCESS, session_id := "", batch_id := "", alert_numbers := [] },
      closeOk := fun _ => true, unclaimOk := fun _ => true,
      reconcileExc := none } "o" "r" true "b"
    { severity := 5, tasks := [{ alert_number := some 1 }] }
    (dictOf (fun n => (attemptLoop ((fun _ _ => false) n) 2 3 n).1) [1])
    ((([1] : List Int).map (alertSegment (fun _ _ => false) 2 3)).flatten) 0
    (by decide)
    (claim_github_alerts_ok
      { gh_token := some "t", devin_bot_username := some "bot",
        devin_api_key := some "k" } (.ok "me") (fun _ _ => false) "o" "r"
      [1] 3 2 "t" "bot" rfl rfl)).1 (by decide)
  exact ⟨h.1, h.2⟩

/-- C4: `dispatch_threads` returns exactly one result per submitted batch, in
the completion order; a batch whose pipeline raises is converted at the fan-in
into a FAILURE result carrying the exception text, while the other batches'
results are collected unchanged — no exception propagates to the caller. -/
theorem dispatch_threads_exception_containment (e : Env)
    (oracleFor : String → PBOracles) (owner repo : String)
    (order : List (String × BatchData)) :
    (dispatch_threads e oracleFor owner repo order).length = order.length ∧
    (∀ (i : Nat) bid bd, order[i]? = some (bid, bd) →
      ∀ msg, (process_batch e (oracleFor bid) owner repo true bid bd).1 =
          .error msg →
        (dispatch_threads e oracleFor owner repo order)[i]? =
          some { status := .FAILURE, session_id := "", batch_id := bid,
                 alert_numbers := [], error_message := some msg }) ∧
    (∀ (i : Nat) bid bd r, order[i]? = some (bid, bd) →
      (process_batch e (oracleFor bid) owner repo true bid bd).1 = .ok r →
        (dispatch_threads e oracleFor owner repo order)[i]? = some r) := by
  by_cases hord : order.isEmpty
  · have hnil : order = [] := List.isEmpty_iff.mp hord
    subst hnil
    refine ⟨by simp [dispatch_threads], ?_, ?_⟩
    · intro i bid bd h
      simp at h
    · intro i bid bd r h
      simp at h
  · unfold dispatch_threads
    rw [if_neg hord]
    refine ⟨by simp, ?_, ?_⟩
    · intro i bid bd hi msg hpb
      rw [List.getElem?_map, hi]
      simp [fanIn, hpb]
    · intro i bid bd r hi hpb
      rw [List.getElem?_map, hi]
      simp [fanIn, hpb]

/-- Witness for C4: a two-batch run where the first batch's pipeline raises
(`reconcileExc`) and the second completes; the dispatcher returns two
results, converting the exception into a FAILURE result with its text. -/
theorem dispatch_threads_exception_containment_witness :
    (dispatch_threads
      { gh_token := some "t", devin_bot_username := some "bot",
        devin_api_key := some "k" }
      (fun b =>
        { claimOk := fun _ _ => true, authResp := .ok "me",
          createResp := .ok (some ("sid", none)),
          pollOutcome := .ok { status := .SUCCESS, session_id := "sid", batch_id := "", alert_numbers := [] },
          closeOk := fun _ => true, unclaimOk := fun _ => true,
          reconcileExc := if b = "b1" then some "boom" else none })
      "o" "r"
      [("b1", { severity := 5, tasks := [{ alert_number := some 1 }] }),
       ("b2", { severity := 3, tasks := [{ alert_number := some 2 }] })]).length = 2 ∧
    (dispatch_threads
      { gh_token := some "t", devin_bot_username := some "bot",
        devin_api_key := some "k" }
      (fun b =>
        { claimOk := fun _ _ => true, authResp := .ok "me",
          createResp := .ok (some ("sid", none)),
          pollOutcome := .ok { status := .SUCCESS, session_id := "sid", batch_id := "", alert_numbers := [] },
          closeOk := fun _ => true, unclaimOk := fun _ => true,
          reconcileExc := if b = "b1" then some "boom" else none })
      "o" "r"
      [("b1", { severity := 5, tasks := [{ alert_number := some 1 }] }),
       ("b2", { severity := 3, tasks := [{ alert_number := some 2 }] })])[0]? =
      some { status := .FAILURE, session_id := "", batch_id := "b1",
             alert_numbers := [], error_message := some "boom" } := by
  constructor
  · exact (dispatch_threads_exception_containment
      { gh_token := some "t", devin_bot_username := some "bot",
        devin_api_key := some "k" }
      (fun b =>
        { claimOk := fun _ _ => true, authResp := .ok "me",
          createResp := .ok (some ("sid", none)),
          pollOutcome := .ok { status := .SUCCESS, session_id := "sid", batch_id := "", alert_numbers := [] },
          closeOk := fun _ => true, unclaimOk := fun _ => true,
          reconcileExc := if b = "b1" then some "boom" else none })
      "o" "r"
      [("b1", { severity := 5, tasks := [{ alert_number := some 1 }] }),
       ("b2", { severity := 3, tasks := [{ alert_number := some 2 }] })]).1
  · exact (dispatch_threads_exception_containment
      { gh_token := some "t", devin_bot_username := some "bot",
        devin_api_key := some "k" }
      (fun b =>
        { claimOk := fun _ _ => true, authResp := .ok "me",
          createResp := .ok (some ("sid", none)),
          pollOutcome := .ok { status := .SUCCESS, session_id := "sid", batch_id := "", alert_numbers := [] },
          closeOk := fun _ => true, unclaimOk := fun _ => true,
          reconcileExc := if b = "b1" then some "boom" else none })
      "o" "r"
      [("b1", { severity := 5, tasks := [{ alert_number := some 1 }] }),
       ("b2", { severity := 3, tasks := [{ alert_number := some 2 }] })]).2.1
      0 "b1" { severity := 5, tasks := [{ alert_number := some 1 }] } rfl
      "boom" rfl

end Sentinel
